import Mathlib

/-!
Verification of `src/tagged_sqlite/tagged_sqlite.h`: schema resolution, type
checking and rendering of tagged SQL queries.

The header computes everything with C++ templates: a query is a type, the
accumulated state is a `tagged_tuple::ttuple` type, and a rejected query is a
program that does not compile.  Here tags are strings, the accumulated tuple is
a record of ordered member lists, and an instantiation that does not compile is
an `Except.error`.
-/

namespace TaggedSqlite

/-! ## Tags, types and diagnostics -/

/-- A tag type such as `class orders`; `simple_type_name::short_name` of a tag
is its name, so a tag is represented by that name. -/
abbrev Tag := String

/-- The C++ types that occur as column types, literal types and recorded
expression types. -/
inductive CppType where
  | int64_t : CppType
  | double_ : CppType
  | std_string : CppType
  | bool_ : CppType
  | std_string_view : CppType
  | type_ref (t : CppType) : CppType
  | std_optional (t : CppType) : CppType
  deriving DecidableEq, Repr

/-- Why an instantiation is rejected: a `static_assert` that fired, with its
message (its condition when it has none), or any other construct that does not
compile. -/
inductive CompileError where
  | static_assert (message : String) : CompileError
  | ill_formed (construct : String) : CompileError
  deriving DecidableEq, Repr

/-! ## Schema (`define_database`, `define_table`, `define_column`) -/

/-- Source: `define_column<Tag, Type>`. -/
structure define_column where
  tag_type : Tag
  value_type : CppType
  deriving DecidableEq, Repr

/-- Source: `define_table<Tag, Columns...>`, which inherits from every column. -/
structure define_table where
  table_tag_type : Tag
  columns : List define_column
  deriving DecidableEq, Repr

/-- Source: `define_database<Tables...>`, which inherits from every table. -/
abbrev define_database := List define_table

/-- Source: `get_table_type<Tag>(Database)`.  The first overload deduces the
columns of the one `define_table<Tag, ...>` base of the database; when there is
no such base (also for `Tag = void`, here `none`) or deduction is ambiguous the
`...` overload answers `t2t<void>`, here `none`. -/
def table_type (db : define_database) (tag : Option Tag) : Option define_table :=
  match tag with
  | none => none
  | some t =>
    match db.filter (fun tb => decide (tb.table_tag_type = t)) with
    | [tb] => some tb
    | _ => none

/-- Source: `has_table<Database, Tag>`. -/
def has_table (db : define_database) (tag : Option Tag) : Bool :=
  (table_type db tag).isSome

/-- Source: `get_column_type<Tag>(x)` for `x` a table or a whole database, given
the `define_column` bases of `x`.  The `define_column<Tag, Type>` overload
deduces `Type` from the one base tagged `Tag`; with no such base, or with
several, the call yields `t2t<void>` or does not compile, here `none`. -/
def get_column_type (bases : List define_column) (tag : Tag) : Option define_column :=
  match bases.filter (fun c => decide (c.tag_type = tag)) with
  | [c] => some c
  | _ => none

/-- Source: `has_column<Database, TableTag, Tag>`, i.e.
`get_column_type<Tag, TableTag>(Database)` compared with `t2t<void>`.  With two
explicit template arguments only the `define_table<TableTag, Columns...>`
overload can match: the `...` overload takes one template argument.  Its return
type is `decltype(get_column_type<Tag>(t))`, written before the `...` overload is
declared, and `detail` is not an associated namespace of a `define_table`, so
that inner call sees the `define_column<Tag, Type>` overload alone.  For a table
the database lacks, and for a table without exactly one column tagged `Tag`,
there is therefore no viable overload and the variable does not compile
(`none`); where it compiles its value is `true`. -/
def has_column (db : define_database) (table : Option Tag) (tag : Tag) : Option Bool :=
  match table_type db table with
  | none => none
  | some tb => if (get_column_type tb.columns tag).isSome then some true else none

/-- A C++17 unary right fold `(pack ^ ...)`; an empty pack is ill-formed for
`^`, here `none`. -/
def fold_xor : List Bool → Option Bool
  | [] => none
  | [b] => some b
  | b :: rest => (fold_xor rest).map (fun r => xor b r)

/-- Source: `has_unique_column_helper<Tag>(define_database<DbTag, Tables...>)`.
The parameter pattern binds the first template argument of the database to
`DbTag` and only the remaining ones to `Tables`; the fold runs over `Tables`
and does not compile when one of its operands does not. -/
def has_unique_column_helper (tag : Tag) (db : define_database) : Option Bool :=
  match db with
  | [] => none
  | _DbTag :: Tables =>
    (Tables.mapM (fun tb => has_column db (some tb.table_tag_type) tag)).bind fold_xor

/-- Source: `has_unique_column<Database, Tag>`. -/
def has_unique_column (db : define_database) (tag : Tag) : Option Bool :=
  has_unique_column_helper tag db

/-- Source: `table_column_type<Database, TableTag, ColumnTag>`.  For
`TableTag = void` the column is looked up among all `define_column` bases of the
database, otherwise among those of `table_type<Database, TableTag>`; `none` when
`::type::value_type` does not exist. -/
def table_column_type (db : define_database) (table : Option Tag) (column : Tag) :
    Option CppType :=
  match table with
  | none => (get_column_type (db.flatMap (fun tb => tb.columns)) column).map (fun c => c.value_type)
  | some t =>
    (table_type db (some t)).bind
      (fun tb => (get_column_type tb.columns column).map (fun c => c.value_type))

/-- The schema of the example program: `customers(id, name)` and
`orders(id, item, customerid, price)`. -/
def example_db : define_database :=
  [ { table_tag_type := "customers",
      columns := [⟨"id", .int64_t⟩, ⟨"name", .std_string⟩] },
    { table_tag_type := "orders",
      columns := [⟨"id", .int64_t⟩, ⟨"item", .std_string⟩,
                  ⟨"customerid", .int64_t⟩, ⟨"price", .double_⟩] } ]

/-! ## Expressions and queries -/

/-- Source: `enum class binary_ops` (without the `size_` sentinel). -/
inductive binary_ops where
  | equal_ | not_equal_ | less_ | less_equal_ | greater_ | greater_equal_
  | and_ | or_ | add_ | sub_ | mul_ | div_ | mod_
  deriving DecidableEq, Repr

/-- Source: `to_underlying(binary_ops)`. -/
def to_underlying : binary_ops → Nat
  | .equal_ => 0 | .not_equal_ => 1 | .less_ => 2 | .less_equal_ => 3
  | .greater_ => 4 | .greater_equal_ => 5 | .and_ => 6 | .or_ => 7
  | .add_ => 8 | .sub_ => 9 | .mul_ => 10 | .div_ => 11 | .mod_ => 12

/-- Source: `binary_ops_to_string[to_underlying(bo)]`. -/
def binary_ops_to_string : binary_ops → String
  | .equal_ => " = " | .not_equal_ => " != " | .less_ => " < " | .less_equal_ => " <= "
  | .greater_ => " > " | .greater_equal_ => " >= " | .and_ => " and " | .or_ => " or "
  | .add_ => " + " | .sub_ => " - " | .mul_ => " * " | .div_ => " / " | .mod_ => " % "

/-- The value held by a `val_holder<T>` built with `val`: `val(int)` and
`val(std::int64_t)` hold a `std::int64_t`, `val(double)` a `double` (kept as its
bit pattern), `val(std::string)` a `std::string`. -/
inductive Literal where
  | int64 (i : Int) : Literal
  | double (bits : Nat) : Literal
  | string (s : String) : Literal
  deriving DecidableEq, Repr

/-- The `T` of `val_holder<T>`. -/
def Literal.type : Literal → CppType
  | .int64 _ => .int64_t
  | .double _ => .double_
  | .string _ => .std_string

/-- The `E` of an `expression<E>`: `column_ref<ColumnName, TableName>` (with
`TableName = void` as `none`), `parameter_ref<Name, T>`, `val_holder<T>` and
`binary_expression<bo, E1, E2>`. -/
inductive Expr where
  | column_ref (column : Tag) (table : Option Tag) : Expr
  | parameter_ref (name : Tag) (T : CppType) : Expr
  | val_holder (e_ : Literal) : Expr
  | binary_expression (bo : binary_ops) (e1_ e2_ : Expr) : Expr
  deriving DecidableEq, Repr

/-- An element of `select_type<Columns...>`: `expression<column_ref<Column, Table>>`
or `column_alias_ref<Alias, Column, Table>` (what `column<...>.as<Alias>()` gives). -/
inductive SelectItem where
  | column (column : Tag) (table : Option Tag) : SelectItem
  | column_alias_ref (Alias : Tag) (column : Tag) (table : Option Tag) : SelectItem
  deriving DecidableEq, Repr

/-- Source: `enum class join_type`. -/
inductive join_type where
  | inner | left | right | full
  deriving DecidableEq, Repr

/-- What `query_builder::from` stores under `from_tag`: `from_type<Table>` for a
single `table_ref<Table>`, or a `join_t<table_ref<Table1>, table_ref<Table2>,
Expression, type>` (`join` builds the `inner` one). -/
inductive FromClause where
  | from_type (table : Tag) : FromClause
  | join_t (t1 t2 : Tag) (e_ : Expr) (type : join_type) : FromClause
  deriving DecidableEq, Repr

/-- The tuple `t_` of a `query_builder`: the members stored by `select`, `from`
and `where`, each absent until its method was called. -/
structure query_tuple where
  select_tag : Option (List SelectItem)
  from_tag : Option FromClause
  where_tag : Option Expr
  deriving DecidableEq, Repr

/-! ## The accumulated tuple -/

/-- Modelled from the spec: `tagged_tuple::has_tag` (tagged_tuple/tagged_tuple.h
is not among the sources); a tuple is the ordered list of its tagged members,
and the specification describes the accumulated parts as sets into which an
entry is inserted at most once. -/
def has_tag {K V : Type} [DecidableEq K] (tag : K) (t : List (K × V)) : Bool :=
  t.any (fun m => decide (m.1 = tag))

/-- Modelled from the spec: `tagged_tuple::append`, the new member goes last. -/
def append {K V : Type} (t : List (K × V)) (m : K × V) : List (K × V) :=
  t ++ [m]

/-- Modelled from the spec: `tagged_tuple::tuple_size`. -/
def tuple_size {K V : Type} (t : List (K × V)) : Nat :=
  t.length

/-- Modelled from the spec: one step of `tagged_tuple::merge`: a member whose
tag the tuple has replaces the value stored under that tag, in place; a member
with a new tag is appended. -/
def merge_member {K V : Type} [DecidableEq K] (t : List (K × V)) (m : K × V) : List (K × V) :=
  if has_tag m.1 t then t.map (fun x => if x.1 = m.1 then (x.1, m.2) else x) else append t m

/-- Modelled from the spec: `tagged_tuple::merge` of two tuples of plain values
(tagged_tuple/tagged_tuple.h is not among the sources): the members of the second
tuple are merged into the first, from left to right.  `process` relies on it to
add the accumulated parts to a tuple that has them already. -/
def merge {K V : Type} [DecidableEq K] (t1 t2 : List (K × V)) : List (K × V) :=
  t2.foldl merge_member t1

/-- The value of a member of `expression_parts::parameters_ref`: a
`parameter_ref<Name, T>` for a named parameter, or a
`type_ref<std::integral_constant<int, k>>` naming the `k`-th stored argument
for a literal. -/
inductive parameters_ref_value where
  | parameter_ref (name : Tag) (T : CppType) : parameters_ref_value
  | type_ref_SizeArguments (k : Nat) : parameters_ref_value
  deriving DecidableEq, Repr

/-- The tag of a member of `selected_columns`: the type `column_ref<Column, Table>`
(stored by `process(column_ref)`) or a bare tag type (the `Column` stored by
`process(column_alias_ref)`). -/
inductive selected_tag where
  | column_ref (column : Tag) (table : Option Tag) : selected_tag
  | tag (t : Tag) : selected_tag
  deriving DecidableEq, Repr

/-- The accumulated tuple `TT` threaded through `process`.  Each part is a
member of the top-level tuple and is `none` while the tuple has no member with
that tag; a member list pairs each tag with the type or value stored under it.
`type` holds the C++ type of the `expression_parts::type` member, always a
`type_ref<...>`.  `cout` is what has been written to `std::cout`: one entry per
printed tuple, made of its `arguments` and `type` members. -/
structure TT where
  parameters_ref : Option (List (Nat × parameters_ref_value))
  arguments : Option (List (Nat × Literal))
  type : Option CppType
  referenced_tables : Option (List (Tag × Unit))
  aliases : Option (List (Tag × (Option Tag × Tag)))
  selected_columns : Option (List (selected_tag × CppType))
  cout : List (List (Nat × Literal) × CppType)
  deriving DecidableEq, Repr

/-- Source: `tagged_tuple::make_ttuple()`, with nothing printed yet. -/
def make_ttuple : TT :=
  { parameters_ref := none, arguments := none, type := none, referenced_tables := none,
    aliases := none, selected_columns := none, cout := [] }

/-- Source: `add_tag_if_not_present<expression_parts::parameters_ref>`: a tuple
without the member gets it with an empty tuple as value. -/
def add_tag_if_not_present_parameters_ref (t : TT) : TT :=
  { t with parameters_ref := some (t.parameters_ref.getD []) }

/-- Source: `add_tag_if_not_present<expression_parts::arguments>`. -/
def add_tag_if_not_present_arguments (t : TT) : TT :=
  { t with arguments := some (t.arguments.getD []) }

/-- Source: `add_tag_if_not_present<referenced_tables>`. -/
def add_tag_if_not_present_referenced_tables (t : TT) : TT :=
  { t with referenced_tables := some (t.referenced_tables.getD []) }

/-- Source: `add_tag_if_not_present<aliases>`. -/
def add_tag_if_not_present_aliases (t : TT) : TT :=
  { t with aliases := some (t.aliases.getD []) }

/-- Source: `add_tag_if_not_present<selected_columns>`. -/
def add_tag_if_not_present_selected_columns (t : TT) : TT :=
  { t with selected_columns := some (t.selected_columns.getD []) }

/-! ## `process`

At the top level `tagged_tuple::merge(tt, make_ttuple(member...))` is modelled
from the spec member by member: a member whose value is itself a tuple is merged
(`merge`) into the value the tuple has under that tag, and the
`expression_parts::type` member replaces the previous one. -/

/-- Source: `process(const parameter_ref<Name, T> &, TT)`. -/
def process_parameter_ref (Name : Tag) (T : CppType) (raw_t : TT) : TT :=
  let tt := add_tag_if_not_present_arguments (add_tag_if_not_present_parameters_ref raw_t)
  let pr := tt.parameters_ref.getD []
  let C := tuple_size pr
  let pr_appended := append pr (C, parameters_ref_value.parameter_ref Name T)
  { tt with parameters_ref := some (merge pr pr_appended), type := some (CppType.type_ref T) }

/-- Source: `process(const val_holder<T> &, TT)`, including its
`std::cout << tt_with_arg_type`. -/
def process_val_holder (e : Literal) (raw_t : TT) : TT :=
  let tt := add_tag_if_not_present_arguments (add_tag_if_not_present_parameters_ref raw_t)
  let pr := tt.parameters_ref.getD []
  let SizePR := tuple_size pr
  let arg := tt.arguments.getD []
  let SizeArguments := tuple_size arg
  let pr_appended := append pr (SizePR, parameters_ref_value.type_ref_SizeArguments SizeArguments)
  let tt_with_parameters_ref := { tt with parameters_ref := some (merge pr pr_appended) }
  let arg_appended := append arg (SizeArguments, e)
  let tt_with_arg_type := (arg_appended, CppType.type_ref e.type)
  { tt_with_parameters_ref with
    arguments := some (merge arg arg_appended),
    type := some tt_with_arg_type.2,
    cout := tt_with_parameters_ref.cout ++ [tt_with_arg_type] }

/-- Source: `tagged_tuple::has_tag<Table, selected_columns>` for the table name
of a `column_ref`: `void` (`none`) tags no member, a tag type is looked up among
the bare tags. -/
def has_tag_Table (Table : Option Tag) (t : List (selected_tag × CppType)) : Bool :=
  match Table with
  | none => false
  | some tb => has_tag (selected_tag.tag tb) t

/-- Source: `process(const column_ref<Column, Table> &, TT)`.  The assertions
are checked in source order and the first one that fails is reported. -/
def process_column_ref (db : define_database) (Column : Tag) (Table : Option Tag) (tt : TT) :
    Except CompileError TT :=
  let asserted : Except CompileError Unit :=
    match Table with
    | none =>
      match has_unique_column db Column with
      | some true => .ok ()
      | some false => .error (.static_assert "Non-unique column without table name")
      | none => .error (.ill_formed "detail::has_unique_column<Database, Column>")
    | some _ =>
      if has_table db Table then
        match has_column db Table Column with
        | some true => .ok ()
        | some false => .error (.static_assert "Missing column")
        | none => .error (.ill_formed "detail::has_column<Database, Table, Column>")
      else .error (.static_assert "Missing table")
  match asserted with
  | .error err => .error err
  | .ok _ =>
    let tt2 := add_tag_if_not_present_selected_columns tt
    let sc := tt2.selected_columns.getD []
    if has_tag_Table Table sc then .error (.static_assert "Column already selected")
    else
      match table_column_type db Table Column with
      | none => .error (.ill_formed "detail::table_column_type<Database, Table, Column>")
      | some T =>
        .ok { tt2 with
              selected_columns := some (merge sc [(selected_tag.column_ref Column Table, CppType.type_ref T)]),
              type := some (CppType.type_ref T) }

/-- Source: `get_binary_op_type<T1, T2, op>` / `binary_op_type`: `bool` (the
type of `true`) for the operators before `add_`, `std::common_type_t<T1, T2>`
otherwise.  `process` instantiates it after asserting `T1 = T2`, and the common
type of a type with itself is that type; for distinct types it is left
undefined. -/
def binary_op_type (T1 T2 : CppType) (op : binary_ops) : Option CppType :=
  if to_underlying op < to_underlying binary_ops.add_ then some CppType.bool_
  else if T1 = T2 then some T1 else none

/-- Source: `process(const expression<E> &, TT)` dispatching to
`process(const parameter_ref<Name, T> &, TT)`, `process(const val_holder<T> &, TT)`,
`process(const column_ref<Column, Table> &, TT)` and
`process(const binary_expression<bo, E1, E2> &, TT)`.  In the last one
`left_type` and `right_type` are the types of the `expression_parts::type`
members, i.e. `type_ref<...>` types. -/
def process (db : define_database) : Expr → TT → Except CompileError TT
  | .parameter_ref Name T, tt => .ok (process_parameter_ref Name T tt)
  | .val_holder e, tt => .ok (process_val_holder e tt)
  | .column_ref Column Table, tt => process_column_ref db Column Table tt
  | .binary_expression bo e1_ e2_, tt =>
    match process db e1_ tt with
    | .error err => .error err
    | .ok tt_left =>
      match process db e2_ tt_left with
      | .error err => .error err
      | .ok tt_right =>
        match tt_left.type, tt_right.type with
        | some left_type, some right_type =>
          if left_type = right_type then
            match binary_op_type left_type right_type bo with
            | some T => .ok { tt_right with type := some (CppType.type_ref T) }
            | none => .error (.ill_formed "std::common_type_t<T1, T2>")
          else .error (.static_assert "std::is_same_v<left_type, right_type>")
        | _, _ => .error (.ill_formed "get<expression_parts::type>")

/-- The value left in a literal that was the source of a `std::move`: a
`std::int64_t` and a `double` are copied, a `std::string` hands its text over
and is left empty. -/
def Literal.moved_from : Literal → Literal
  | .int64 i => .int64 i
  | .double bits => .double bits
  | .string _ => .string ""

/-- The tuple `tt` after `std::move(tt)` was used to construct another tuple.
The members are part of the tuple's type and stay; of the stored values only
those of the `arguments` member are not empty classes, and each of them is left
as `Literal.moved_from` says. -/
def moved_from (tt : TT) : TT :=
  { tt with arguments := tt.arguments.map (fun l => l.map (fun m => (m.1, m.2.moved_from))) }

/-- Source: `process(const table_ref<Table>, TT)`.  `tt` is moved into
`add_tag_if_not_present`, whose result is `tt2`.  For a table not yet referenced
the result is built from `tt2`; otherwise the function returns `std::move(tt)`,
the tuple that was moved from. -/
def process_table_ref (db : define_database) (Table : Tag) (tt : TT) : Except CompileError TT :=
  if has_table db (some Table) then
    let tt2 := add_tag_if_not_present_referenced_tables tt
    let rt := tt2.referenced_tables.getD []
    if !has_tag Table rt then
      .ok { tt2 with referenced_tables := some (merge rt [(Table, ())]) }
    else .ok (moved_from tt)
  else .error (.static_assert "Missing table")

/-- Source: `process(const column_alias_ref<Alias, Column, Table> &, TT)`.  The
`aliases` member stores `column_ref<Table, Column>` with the arguments in that
order; the `selected_columns` member is tagged with the bare `Column`.  The
tuple handed to `merge` holds the `selected_columns` member inside a nested
`make_ttuple`; it is taken to contribute that member like a direct one. -/
def process_column_alias_ref (db : define_database) (Alias Column : Tag) (Table : Option Tag)
    (tt : TT) : Except CompileError TT :=
  if has_table db Table then
    match has_column db Table Column with
    | none => .error (.ill_formed "detail::has_column<Database, Table, Column>")
    | some false => .error (.static_assert "Missing column")
    | some true =>
      let tt2 := add_tag_if_not_present_aliases tt
      let al := tt2.aliases.getD []
      if has_tag Alias al then .error (.static_assert "Aliases already defined")
      else
        match table_column_type db Table Column with
        | none => .error (.ill_formed "detail::table_column_type<Database, Table, Column>")
        | some T =>
          .ok { tt2 with
                aliases := some (merge al [(Alias, (Table, Column))]),
                selected_columns :=
                  some (merge (tt2.selected_columns.getD []) [(selected_tag.tag Column, CppType.type_ref T)]) }
  else .error (.static_assert "Missing table")

/-- Source: `process(const join_t<Table1, Table2, Expression, type> &, TT)`. -/
def process_join_t (db : define_database) (t1 t2 : Tag) (e_ : Expr) (tt : TT) :
    Except CompileError TT :=
  match process_table_ref db t1 tt with
  | .error err => .error err
  | .ok tt1 =>
    match process_table_ref db t2 tt1 with
    | .error err => .error err
    | .ok tt2 => process db e_ tt2

/-- The `process` overload chosen for one element of a select list. -/
def process_select_item (db : define_database) (c : SelectItem) (tt : TT) :
    Except CompileError TT :=
  match c with
  | .column Column Table => process db (Expr.column_ref Column Table) tt
  | .column_alias_ref Alias Column Table => process_column_alias_ref db Alias Column Table tt

/-- Source: `process_helper<Database>(tt, t, rest...)`. -/
def process_helper (db : define_database) (tt : TT) : List SelectItem → Except CompileError TT
  | [] => .ok tt
  | t :: rest =>
    match process_select_item db t tt with
    | .error err => .error err
    | .ok tt1 => process_helper db tt1 rest

/-- Source: `process(const select_type<Columns...> &, TT)`. -/
def process_select_type (db : define_database) (s : List SelectItem) (tt : TT) :
    Except CompileError TT :=
  process_helper db tt s

/-- Source: the `process` overload that `build` reaches for its `from_tag`
member.  `process(const from_type<E> &, TT)` calls `process(f.e, std::move(tt))`
without the `Database` argument, which no overload accepts. -/
def process_from_tag (db : define_database) (f : FromClause) (tt : TT) : Except CompileError TT :=
  match f with
  | .from_type _ => .error (.ill_formed "process(f.e, std::move(tt))")
  | .join_t t1 t2 e_ _ => process_join_t db t1 t2 e_ tt

/-- The tuple returned by `query_builder::build`: the members of `t_` merged
with the accumulated tuple. -/
structure built_query where
  t_ : query_tuple
  tt : TT
  deriving DecidableEq, Repr

/-- Source: `query_builder::build`. -/
def build (db : define_database) (t_ : query_tuple) : Except CompileError built_query :=
  match t_.select_tag with
  | none => .error (.ill_formed "tagged_tuple::get<select_tag>(t_)")
  | some s =>
    match process_select_type db s make_ttuple with
    | .error err => .error err
    | .ok tt_select =>
      match t_.from_tag with
      | none => .error (.ill_formed "tagged_tuple::get<from_tag>(t_)")
      | some f =>
        match process_from_tag db f tt_select with
        | .error err => .error err
        | .ok tt_from =>
          match t_.where_tag with
          | none => .error (.ill_formed "tagged_tuple::get<where_tag>(t_)")
          | some w =>
            match process db w tt_from with
            | .error err => .error err
            | .ok tt_where => .ok { t_ := t_, tt := tt_where }

/-! ## Rendering -/

/-- Source: the `expression_to_string` overloads for
`expression<binary_expression<bo, E1, E2>>`, `expression<val_holder<T>>`,
`expression<val_holder<std::string>>`, `expression<column_ref<Column, Table>>`
and `expression<parameter_ref<Name, T>>`. -/
def expression_to_string : Expr → String
  | .binary_expression bo e1_ e2_ =>
    expression_to_string e1_ ++ binary_ops_to_string bo ++ expression_to_string e2_
  | .val_holder (.string s) => s
  | .val_holder _ => "?"
  | .column_ref Column none => Column
  | .column_ref Column (some Table) => Table ++ "." ++ Column
  | .parameter_ref _ _ => " ? "

/-- Source: `to_column_string` for `expression<column_ref<Column, Table>>` and
for `column_alias_ref<Alias, Column, Table>`. -/
def to_column_string : SelectItem → String
  | .column Column none => Column
  | .column Column (some Table) => Table ++ "." ++ Column
  | .column_alias_ref Alias Column none => Column ++ " AS " ++ Alias
  | .column_alias_ref Alias Column (some Table) => Table ++ "." ++ Column ++ " AS " ++ Alias

/-- Source: `join_vector`.  `ret.back()` on an empty string (an empty vector)
is undefined, here `none`; `resize(size - 2)` keeps all but the last two
characters. -/
def join_vector (v : List String) : Option String :=
  let ret := v.foldl (fun ret s => ret ++ (s ++ ", ")) ""
  match ret.data.getLast? with
  | none => none
  | some back =>
    if back = ' ' then some (String.mk (ret.data.take (ret.data.length - 2))) else some ret

/-- Source: `to_statement(const table_ref<Table> &)`. -/
def to_statement_table_ref (Table : Tag) : String :=
  Table

/-- Source: `to_statement(select_type<Columns...>)`. -/
def to_statement_select_type (s : List SelectItem) : Option String :=
  (join_vector (s.map to_column_string)).map (fun joined => "SELECT " ++ joined)

/-- Source: `to_statement(from_type<Tables...>)` and
`to_statement(const join_t<Table1, Table2, Expression, join_type::inner> &)`;
the other join types have no overload. -/
def to_statement_from_tag : FromClause → Option String
  | .from_type Table => (join_vector [Table]).map (fun joined => "\nFROM " ++ joined)
  | .join_t t1 t2 e_ .inner =>
    some ("\nFROM " ++ to_statement_table_ref t1 ++ " JOIN " ++ to_statement_table_ref t2 ++
      " ON " ++ expression_to_string e_ ++ "\n")
  | .join_t _ _ _ _ => none

/-- Source: `to_statement(tagged_tuple::ttuple<Members...>)`, applied to the
members that `build` copies from the query. -/
def to_statement (t : query_tuple) : Option String :=
  match t.select_tag, t.from_tag with
  | some s, some f =>
    match to_statement_select_type s, to_statement_from_tag f with
    | some sel, some frm =>
      let statement := sel ++ frm
      match t.where_tag with
      | some w => some (statement ++ "\nWHERE " ++ expression_to_string w)
      | none => some statement
    | _, _ => none
  | _, _ => none

/-! ## Row type -/

/-- Source: `result_type_t<T>`. -/
def result_type_t : CppType → CppType
  | .std_string => .std_optional .std_string_view
  | T => .std_optional T

/-- Source: `remove_type_ref_t<TypeRef>`. -/
def remove_type_ref_t : CppType → Option CppType
  | .type_ref T => some T
  | _ => none

/-- Source: `row_type_helper<tagged_tuple::ttuple<Columns...>>::type`. -/
def row_type_helper (Columns : List (selected_tag × CppType)) : Option (List (selected_tag × CppType)) :=
  Columns.mapM (fun m => (remove_type_ref_t m.2).map (fun T => (m.1, result_type_t T)))

/-- Source: `row_type_t<Query>`. -/
def row_type_t (Query : built_query) : Option (List (selected_tag × CppType)) :=
  Query.tt.selected_columns.bind row_type_helper

/-- The tag under which `process` stores an element of the select list. -/
def SelectItem.tag : SelectItem → selected_tag
  | .column Column Table => selected_tag.column_ref Column Table
  | .column_alias_ref _ Column _ => selected_tag.tag Column

/-! ## Vocabulary of the properties and example inputs -/

/-- A table declares a column name when one of its columns carries that tag. -/
def declares (tb : define_table) (Column : Tag) : Bool :=
  tb.columns.any (fun c => decide (c.tag_type = Column))

/-- A schema whose table `item` has a column that is also tagged `item`. -/
def item_db : define_database :=
  [ { table_tag_type := "item", columns := [⟨"item", .std_string⟩, ⟨"id", .int64_t⟩] } ]

/-- The accumulated tuple after `item.item AS x` was processed against `item_db`. -/
def item_aliased_tt : TT :=
  { make_ttuple with
    aliases := some [("x", (some "item", "item"))],
    selected_columns := some [(selected_tag.tag "item", CppType.type_ref CppType.std_string)] }

/-- `orders.id`. -/
def orders_id : SelectItem := SelectItem.column "id" (some "orders")

/-- The join of the example program: `orders JOIN customers ON customers.id = customerid`. -/
def orders_join_customers : FromClause :=
  FromClause.join_t "orders" "customers"
    (Expr.binary_expression binary_ops.equal_
      (Expr.column_ref "id" (some "customers")) (Expr.column_ref "customerid" none))
    join_type.inner

/-- `SELECT orders.id, item FROM orders JOIN customers ON customers.id = customerid
WHERE price > ?min_price:double`. -/
def orders_query : query_tuple :=
  { select_tag := some [orders_id, SelectItem.column "item" none],
    from_tag := some orders_join_customers,
    where_tag := some (Expr.binary_expression binary_ops.greater_
      (Expr.column_ref "price" none) (Expr.parameter_ref "min_price" CppType.double_)) }

/-- The same select list and join, `WHERE customers.name = val(std::string("John"))`. -/
def john_query : query_tuple :=
  { select_tag := some [orders_id, SelectItem.column "item" none],
    from_tag := some orders_join_customers,
    where_tag := some (Expr.binary_expression binary_ops.equal_
      (Expr.column_ref "name" (some "customers")) (Expr.val_holder (Literal.string "John"))) }

/-- `a + b` for parameters `a`, `b` of type `double`. -/
def a_plus_b : Expr :=
  Expr.binary_expression binary_ops.add_
    (Expr.parameter_ref "a" CppType.double_) (Expr.parameter_ref "b" CppType.double_)

/-- `a + b > c` for parameters `a`, `b`, `c` of type `double`. -/
def a_plus_b_greater_c : Expr :=
  Expr.binary_expression binary_ops.greater_ a_plus_b (Expr.parameter_ref "c" CppType.double_)

/-- The comparison and boolean operators, those before `add_`. -/
def comparison_or_boolean : List binary_ops :=
  [.equal_, .not_equal_, .less_, .less_equal_, .greater_, .greater_equal_, .and_, .or_]

/-- The arithmetic operators. -/
def arithmetic : List binary_ops :=
  [.add_, .sub_, .mul_, .div_, .mod_]

/-- A textual occurrence of a parameter reference or of a literal in an
expression. -/
inductive occurrence where
  | parameter (name : Tag) (T : CppType) : occurrence
  | literal (value : Literal) : occurrence
  deriving DecidableEq, Repr

/-- The parameter references and literals of an expression in left-to-right
order: those of the left operand of a binary operation before those of its
right operand. -/
def occurrences : Expr → List occurrence
  | .column_ref _ _ => []
  | .parameter_ref name T => [occurrence.parameter name T]
  | .val_holder value => [occurrence.literal value]
  | .binary_expression _ e1_ e2_ => occurrences e1_ ++ occurrences e2_

/-- The slots the specification expects for a list of occurrences, the first
one tagged `ordinal`: one slot per occurrence, tagged with consecutive ordinals;
a parameter reference is stored with its name and type, a literal as the index
of the next free stored argument, counted from `argument`. -/
def slots (ordinal argument : Nat) : List occurrence → List (Nat × parameters_ref_value)
  | [] => []
  | .parameter name T :: rest =>
    (ordinal, parameters_ref_value.parameter_ref name T) :: slots (ordinal + 1) argument rest
  | .literal _ :: rest =>
    (ordinal, parameters_ref_value.type_ref_SizeArguments argument) ::
      slots (ordinal + 1) (argument + 1) rest

/-- The arguments the specification expects to be stored for a list of
occurrences: the values of the literals, in order, tagged from `argument` on. -/
def stored_arguments (argument : Nat) : List occurrence → List (Nat × Literal)
  | [] => []
  | .parameter _ _ :: rest => stored_arguments argument rest
  | .literal value :: rest => (argument, value) :: stored_arguments (argument + 1) rest

/-- The members of a tuple are tagged `0, 1, 2, ...` in order, as
`std::integral_constant<int, i>`. -/
def ordinal_tags {V : Type} (t : List (Nat × V)) : Prop :=
  t.map Prod.fst = List.range t.length

/-- `price > val(1400)`: a `double` column compared with an integer literal. -/
def price_greater_1400 : Expr :=
  Expr.binary_expression binary_ops.greater_
    (Expr.column_ref "price" (some "orders")) (Expr.val_holder (Literal.int64 1400))

/-- `price > ?min_price:double and item = ?item:string`. -/
def price_and_item : Expr :=
  Expr.binary_expression binary_ops.and_
    (Expr.binary_expression binary_ops.greater_
      (Expr.column_ref "price" (some "orders")) (Expr.parameter_ref "min_price" CppType.double_))
    (Expr.binary_expression binary_ops.equal_
      (Expr.column_ref "item" (some "orders")) (Expr.parameter_ref "item" CppType.std_string))

/-- `orders.price > ?p:double and (orders.id = val(7) or orders.customerid = ?p:int64)`:
the name `p` occurs twice, around a literal. -/
def repeated_name : Expr :=
  Expr.binary_expression binary_ops.and_
    (Expr.binary_expression binary_ops.greater_
      (Expr.column_ref "price" (some "orders")) (Expr.parameter_ref "p" CppType.double_))
    (Expr.binary_expression binary_ops.or_
      (Expr.binary_expression binary_ops.equal_
        (Expr.column_ref "id" (some "orders")) (Expr.val_holder (Literal.int64 7)))
      (Expr.binary_expression binary_ops.equal_
        (Expr.column_ref "customerid" (some "orders")) (Expr.parameter_ref "p" CppType.int64_t)))

/-- The accumulated tuple after `repeated_name` was processed from the empty
tuple against `example_db`. -/
def repeated_name_tt : TT :=
  { parameters_ref := some [(0, parameters_ref_value.parameter_ref "p" CppType.double_),
                            (1, parameters_ref_value.type_ref_SizeArguments 0),
                            (2, parameters_ref_value.parameter_ref "p" CppType.int64_t)],
    arguments := some [(0, Literal.int64 7)],
    type := some (CppType.type_ref CppType.bool_),
    referenced_tables := none,
    aliases := none,
    selected_columns :=
      some [(selected_tag.column_ref "price" (some "orders"), CppType.type_ref CppType.double_),
            (selected_tag.column_ref "id" (some "orders"), CppType.type_ref CppType.int64_t),
            (selected_tag.column_ref "customerid" (some "orders"), CppType.type_ref CppType.int64_t)],
    cout := [([(0, Literal.int64 7)], CppType.type_ref CppType.int64_t)] }

/-! ## Row access (`field`) -/

/-- Whether the tag of a row member has the form `column_ref<Column, Table>`
that the parameter of `field_helper` asks for: with `Table` given explicitly
(`some`) the tag must be exactly that type, with `Table` left to deduction
(`none`) any table, also `void`, matches.  A bare tag never matches. -/
def matches_column_ref (Column : Tag) (Table : Option (Option Tag)) : selected_tag → Bool
  | selected_tag.column_ref c t =>
    match Table with
    | some T => decide (c = Column ∧ t = T)
    | none => decide (c = Column)
  | selected_tag.tag _ => false

/-- Source: `field_helper<Column, Table>(m)` and `field_helper<Column>(m)` on a
row, given as the list of its tagged members.  The parameter type is
`member<column_ref<Column, Table>, Value>`: `Value` (and `Table`, when it is not
given explicitly) is deduced from the one base of the row that matches; with no
matching base, or with several, the call does not compile (`none`). -/
def field_helper {V : Type} (Column : Tag) (Table : Option (Option Tag))
    (m : List (selected_tag × V)) : Option V :=
  match m.filter (fun x => matches_column_ref Column Table x.1) with
  | [x] => some x.2
  | _ => none

/-- Source: `field<Column>(r)`, the overload with one explicit template argument. -/
def field_Column {V : Type} (Column : Tag) (r : List (selected_tag × V)) : Option V :=
  field_helper Column none r

/-- Source: `field<Table, Column>(r)`, the overload with two explicit template
arguments. -/
def field_Table_Column {V : Type} (Table : Option Tag) (Column : Tag)
    (r : List (selected_tag × V)) : Option V :=
  field_helper Column (some Table) r

/-! ## More vocabulary and example inputs -/

/-- The alias tags declared by a select list, in order. -/
def alias_tags : List SelectItem → List Tag
  | [] => []
  | .column _ _ :: rest => alias_tags rest
  | .column_alias_ref Alias _ _ :: rest => Alias :: alias_tags rest

/-- The literal values among a list of occurrences, in order. -/
def literals : List occurrence → List Literal
  | [] => []
  | .parameter _ _ :: rest => literals rest
  | .literal value :: rest => value :: literals rest

/-- The argument index stored in a literal slot; a named slot stores none. -/
def slot_index : parameters_ref_value → Option Nat
  | .parameter_ref _ _ => none
  | .type_ref_SizeArguments k => some k

/-- Every member of a selected-columns set holds a `type_ref<T>`, as every
member stored by `process` does. -/
def holds_type_refs (Columns : List (selected_tag × CppType)) : Prop :=
  ∀ m ∈ Columns, ∃ T, m.2 = CppType.type_ref T

/-- `customers.id = ?cid:int64`. -/
def customers_id_eq_cid : Expr :=
  Expr.binary_expression binary_ops.equal_
    (Expr.column_ref "id" (some "customers")) (Expr.parameter_ref "cid" CppType.int64_t)

/-- `price > ?min_price:double`. -/
def price_greater_min_price : Expr :=
  Expr.binary_expression binary_ops.greater_
    (Expr.column_ref "price" none) (Expr.parameter_ref "min_price" CppType.double_)

/-- `SELECT orders.id FROM orders JOIN customers ON customers.id = ?cid:int64
WHERE price > ?min_price:double`: a parameter in the ON expression and one in
the where expression. -/
def on_where_query : query_tuple :=
  { select_tag := some [orders_id],
    from_tag := some (FromClause.join_t "orders" "customers" customers_id_eq_cid join_type.inner),
    where_tag := some price_greater_min_price }

/-- The accumulated tuple `build` returns for `on_where_query`. -/
def on_where_tt : TT :=
  { parameters_ref := some [(0, parameters_ref_value.parameter_ref "cid" CppType.int64_t),
                            (1, parameters_ref_value.parameter_ref "min_price" CppType.double_)],
    arguments := some [],
    type := some (CppType.type_ref CppType.bool_),
    referenced_tables := some [("orders", ()), ("customers", ())],
    aliases := none,
    selected_columns :=
      some [(selected_tag.column_ref "id" (some "orders"), CppType.type_ref CppType.int64_t),
            (selected_tag.column_ref "id" (some "customers"), CppType.type_ref CppType.int64_t),
            (selected_tag.column_ref "price" none, CppType.type_ref CppType.double_)],
    cout := [] }

/-- The accumulated tuple after `orders` was referenced once from the empty tuple. -/
def orders_referenced_tt : TT :=
  { make_ttuple with referenced_tables := some [("orders", ())] }

/-- `SELECT item, orders.item` with the join of the example and
`WHERE price > ?min_price:double`: the column `item` selected without and with
its table. -/
def item_twice_query : query_tuple :=
  { select_tag := some [SelectItem.column "item" none, SelectItem.column "item" (some "orders")],
    from_tag := some orders_join_customers,
    where_tag := some (Expr.binary_expression binary_ops.greater_
      (Expr.column_ref "price" (some "orders")) (Expr.parameter_ref "min_price" CppType.double_)) }

/-- The select list and join of `orders_query`, without a where expression. -/
def no_where_query : query_tuple :=
  { select_tag := some [orders_id, SelectItem.column "item" none],
    from_tag := some orders_join_customers,
    where_tag := none }

/-- The selected-columns set after `orders.id` and `item` were selected. -/
def id_item_columns : List (selected_tag × CppType) :=
  [(selected_tag.column_ref "id" (some "orders"), CppType.type_ref CppType.int64_t),
   (selected_tag.column_ref "item" none, CppType.type_ref CppType.std_string)]

/-- A row of the type `build` computes for `item_twice_query`, with the field
values written as text. -/
def item_twice_row : List (selected_tag × String) :=
  [(selected_tag.column_ref "item" none, "Phone"),
   (selected_tag.column_ref "item" (some "orders"), "Phone"),
   (selected_tag.column_ref "id" (some "customers"), "1"),
   (selected_tag.column_ref "customerid" none, "1"),
   (selected_tag.column_ref "price" (some "orders"), "1444.44")]

/-- A row with the single field `orders.id`. -/
def orders_id_row : List (selected_tag × String) :=
  [(selected_tag.column_ref "id" (some "orders"), "7")]

/-! ## Vocabulary and example inputs for grouping, frames and the from clause -/

/-- The tuple with its `referenced_tables` member replaced. -/
def with_referenced_tables (tt : TT) (rt : Option (List (Tag × Unit))) : TT :=
  { tt with referenced_tables := rt }

/-- The accumulated tuple after the literal `val(std::string("John"))` was
processed from the empty tuple. -/
def john_tt : TT :=
  { parameters_ref := some [(0, parameters_ref_value.type_ref_SizeArguments 0)],
    arguments := some [(0, Literal.string "John")],
    type := some (CppType.type_ref CppType.std_string),
    referenced_tables := none,
    aliases := none,
    selected_columns := none,
    cout := [([(0, Literal.string "John")], CppType.type_ref CppType.std_string)] }

/-- The tuple `john_tt` after the table `orders` was referenced once. -/
def john_orders_tt : TT :=
  { john_tt with referenced_tables := some [("orders", ())] }

/-- `orders.id = ?x:int64`. -/
def id_eq_x : Expr :=
  Expr.binary_expression binary_ops.equal_
    (Expr.column_ref "id" (some "orders")) (Expr.parameter_ref "x" CppType.int64_t)

/-- `orders.customerid = ?y:int64`. -/
def customerid_eq_y : Expr :=
  Expr.binary_expression binary_ops.equal_
    (Expr.column_ref "customerid" (some "orders")) (Expr.parameter_ref "y" CppType.int64_t)

/-- `orders.price = ?z:double`. -/
def price_eq_z : Expr :=
  Expr.binary_expression binary_ops.equal_
    (Expr.column_ref "price" (some "orders")) (Expr.parameter_ref "z" CppType.double_)

/-- `(orders.id = ?x or orders.customerid = ?y) and orders.price = ?z`. -/
def grouped_left : Expr :=
  Expr.binary_expression binary_ops.and_
    (Expr.binary_expression binary_ops.or_ id_eq_x customerid_eq_y) price_eq_z

/-- `orders.id = ?x or (orders.customerid = ?y and orders.price = ?z)`. -/
def grouped_right : Expr :=
  Expr.binary_expression binary_ops.or_
    id_eq_x (Expr.binary_expression binary_ops.and_ customerid_eq_y price_eq_z)

/-- The query of the example with `where_tag` set to the given expression. -/
def orders_where (w : Expr) : query_tuple :=
  { select_tag := some [orders_id],
    from_tag := some orders_join_customers,
    where_tag := some w }

/-- `orders.id = orders.customerid`. -/
def id_eq_customerid : Expr :=
  Expr.binary_expression binary_ops.equal_
    (Expr.column_ref "id" (some "orders")) (Expr.column_ref "customerid" (some "orders"))

/-- `orders.price > ?min_price:double`. -/
def orders_price_greater_min_price : Expr :=
  Expr.binary_expression binary_ops.greater_
    (Expr.column_ref "price" (some "orders")) (Expr.parameter_ref "min_price" CppType.double_)

/-- `SELECT customers.name FROM orders WHERE orders.price > ?min_price:double`:
a column of `customers` selected from `orders` alone. -/
def name_from_orders_alone : query_tuple :=
  { select_tag := some [SelectItem.column "name" (some "customers")],
    from_tag := some (FromClause.from_type "orders"),
    where_tag := some orders_price_greater_min_price }

/-- `SELECT customers.name FROM orders JOIN orders ON orders.id = orders.customerid
WHERE orders.price > ?min_price:double`: a column of `customers` selected from a
join that names `orders` only. -/
def name_from_orders_join_orders : query_tuple :=
  { select_tag := some [SelectItem.column "name" (some "customers")],
    from_tag := some (FromClause.join_t "orders" "orders" id_eq_customerid join_type.inner),
    where_tag := some orders_price_greater_min_price }

/-- `SELECT customers.name FROM orders JOIN customers ON orders.id = orders.customerid
WHERE orders.price > ?min_price:double`. -/
def name_from_orders_join_customers : query_tuple :=
  { select_tag := some [SelectItem.column "name" (some "customers")],
    from_tag := some (FromClause.join_t "orders" "customers" id_eq_customerid join_type.inner),
    where_tag := some orders_price_greater_min_price }

/-- The accumulated tuple `build` returns for `name_from_orders_join_customers`. -/
def name_query_tt : TT :=
  { parameters_ref := some [(0, parameters_ref_value.parameter_ref "min_price" CppType.double_)],
    arguments := some [],
    type := some (CppType.type_ref CppType.bool_),
    referenced_tables := some [("orders", ()), ("customers", ())],
    aliases := none,
    selected_columns :=
      some [(selected_tag.column_ref "name" (some "customers"), CppType.type_ref CppType.std_string),
            (selected_tag.column_ref "id" (some "orders"), CppType.type_ref CppType.int64_t),
            (selected_tag.column_ref "customerid" (some "orders"), CppType.type_ref CppType.int64_t),
            (selected_tag.column_ref "price" (some "orders"), CppType.type_ref CppType.double_)],
    cout := [] }

/-! ## Theorems -/

/-! ### Schema lookups -/

theorem table_type_some (db : define_database) (Table : Tag) (tb : define_table)
    (h : table_type db (some Table) = some tb) : tb ∈ db ∧ tb.table_tag_type = Table := by
  unfold table_type at h
  simp only [] at h
  split at h
  · rename_i x hx
    have hmem : x ∈ db.filter (fun tb => decide (tb.table_tag_type = Table)) := by
      rw [hx]; exact List.mem_singleton_self x
    rw [List.mem_filter] at hmem
    cases h
    exact ⟨hmem.1, by simpa using hmem.2⟩
  · cases h

theorem get_column_type_some (bases : List define_column) (tag : Tag) (c : define_column)
    (h : get_column_type bases tag = some c) : c ∈ bases ∧ c.tag_type = tag := by
  unfold get_column_type at h
  split at h
  · rename_i x hx
    have hmem : x ∈ bases.filter (fun c => decide (c.tag_type = tag)) := by
      rw [hx]; exact List.mem_singleton_self x
    rw [List.mem_filter] at hmem
    cases h
    exact ⟨hmem.1, by simpa using hmem.2⟩
  · cases h

theorem get_column_type_none_of_two (bases : List define_column) (tag : Tag)
    (h : 2 ≤ (bases.filter (fun c => decide (c.tag_type = tag))).length) :
    get_column_type bases tag = none := by
  unfold get_column_type
  split
  · rename_i c hc
    rw [hc] at h
    simp at h
  · rfl

theorem declaring_tables_le_bases (db : define_database) (Column : Tag) :
    (db.filter (fun tb => declares tb Column)).length ≤
      ((db.flatMap (fun tb => tb.columns)).filter (fun c => decide (c.tag_type = Column))).length := by
  induction db with
  | nil => simp
  | cons tb rest ih =>
    simp only [List.flatMap_cons, List.filter_append, List.length_append, List.filter_cons]
    by_cases hd : declares tb Column = true
    · have hpos : 0 < (tb.columns.filter (fun c => decide (c.tag_type = Column))).length := by
        unfold declares at hd
        rw [List.any_eq_true] at hd
        obtain ⟨c, hc, hcd⟩ := hd
        exact List.length_pos_of_mem (List.mem_filter.mpr ⟨hc, hcd⟩)
      simp only [hd, if_true, List.length_cons]
      omega
    · simp only [hd]
      simp only [Bool.false_eq_true, if_false]
      omega

/-! ### The recorded expression type -/

theorem process_type_isSome (db : define_database) (e : Expr) (tt tt1 : TT)
    (h : process db e tt = Except.ok tt1) : ∃ T, tt1.type = some (CppType.type_ref T) := by
  cases e with
  | parameter_ref Name T =>
    simp only [process, process_parameter_ref, Except.ok.injEq] at h
    subst h
    exact ⟨T, rfl⟩
  | val_holder v =>
    simp only [process, process_val_holder, Except.ok.injEq] at h
    subst h
    exact ⟨_, rfl⟩
  | column_ref Column Table =>
    simp only [process, process_column_ref] at h
    split at h
    · cases h
    · split at h
      · cases h
      · split at h
        · cases h
        · simp only [Except.ok.injEq] at h
          subst h
          exact ⟨_, rfl⟩
  | binary_expression bo e1 e2 =>
    simp only [process] at h
    split at h
    · cases h
    · split at h
      · cases h
      · split at h
        · split at h
          · split at h
            · simp only [Except.ok.injEq] at h
              subst h
              exact ⟨_, rfl⟩
            · cases h
          · cases h
        · cases h

theorem binary_op_type_comparison (T1 T2 : CppType) (bo : binary_ops)
    (hbo : bo ∈ comparison_or_boolean) : binary_op_type T1 T2 bo = some CppType.bool_ := by
  simp only [comparison_or_boolean, List.mem_cons, List.mem_singleton, List.not_mem_nil,
    or_false] at hbo
  rcases hbo with h | h | h | h | h | h | h | h <;> subst h <;> rfl

theorem process_binary_same_type (db : define_database) (bo : binary_ops) (e1 e2 : Expr)
    (tt tt_left tt_right : TT) (T : CppType)
    (h1 : process db e1 tt = Except.ok tt_left) (h2 : process db e2 tt_left = Except.ok tt_right)
    (hl : tt_left.type = some T) (hr : tt_right.type = some T) :
    process db (Expr.binary_expression bo e1 e2) tt =
      match binary_op_type T T bo with
      | some R => Except.ok { tt_right with type := some (CppType.type_ref R) }
      | none => Except.error (CompileError.ill_formed "std::common_type_t<T1, T2>") := by
  simp only [process, h1, h2, hl, hr, if_true]

theorem process_binary_comparison (db : define_database) (bo : binary_ops) (e1 e2 : Expr)
    (tt tt_left tt_right : TT) (hbo : bo ∈ comparison_or_boolean)
    (h1 : process db e1 tt = Except.ok tt_left) (h2 : process db e2 tt_left = Except.ok tt_right)
    (hty : tt_left.type = tt_right.type) :
    process db (Expr.binary_expression bo e1 e2) tt
      = Except.ok { tt_right with type := some (CppType.type_ref CppType.bool_) } := by
  obtain ⟨T, hT⟩ := process_type_isSome db e1 tt tt_left h1
  rw [process_binary_same_type db bo e1 e2 tt tt_left tt_right _ h1 h2 hT (hty ▸ hT),
    binary_op_type_comparison _ _ bo hbo]

theorem process_binary_type_mismatch (db : define_database) (bo : binary_ops) (e1 e2 : Expr)
    (tt tt_left tt_right : TT)
    (h1 : process db e1 tt = Except.ok tt_left) (h2 : process db e2 tt_left = Except.ok tt_right)
    (hne : tt_left.type ≠ tt_right.type) :
    process db (Expr.binary_expression bo e1 e2) tt
      = Except.error (CompileError.static_assert "std::is_same_v<left_type, right_type>") := by
  obtain ⟨L, hL⟩ := process_type_isSome db e1 tt tt_left h1
  obtain ⟨R, hR⟩ := process_type_isSome db e2 tt_left tt_right h2
  have hLR : ¬ (CppType.type_ref L = CppType.type_ref R) := by
    intro heq
    apply hne
    rw [hL, hR, heq]
  simp only [process, h1, h2, hL, hR, hLR, if_false]

/-! ### Merging into a tuple with distinct tags -/

theorem has_tag_eq_false_iff {K V : Type} [DecidableEq K] (k : K) (t : List (K × V)) :
    has_tag k t = false ↔ k ∉ t.map Prod.fst := by
  unfold has_tag
  rw [List.any_eq_false]
  simp only [decide_eq_true_eq, List.mem_map, not_exists, not_and, Prod.forall]

theorem merge_member_of_mem {K V : Type} [DecidableEq K] (t : List (K × V)) (m : K × V)
    (hnd : (t.map Prod.fst).Nodup) (hm : m ∈ t) : merge_member t m = t := by
  unfold merge_member
  have hhas : has_tag m.1 t = true := by
    unfold has_tag
    rw [List.any_eq_true]
    exact ⟨m, hm, by simp⟩
  rw [if_pos hhas]
  conv_rhs => rw [← List.map_id t]
  apply List.map_congr_left
  intro x hx
  by_cases hk : x.1 = m.1
  · have hxm : x = m := List.inj_on_of_nodup_map hnd hx hm hk
    subst hxm
    simp
  · simp [hk]

theorem foldl_merge_member_of_subset {K V : Type} [DecidableEq K] (t l : List (K × V))
    (hnd : (t.map Prod.fst).Nodup) (hl : ∀ m ∈ l, m ∈ t) : l.foldl merge_member t = t := by
  induction l with
  | nil => rfl
  | cons m rest ih =>
    rw [List.foldl_cons, merge_member_of_mem t m hnd (hl m (List.mem_cons_self m rest))]
    exact ih (fun x hx => hl x (List.mem_cons_of_mem m hx))

theorem merge_append_new {K V : Type} [DecidableEq K] (t : List (K × V)) (m : K × V)
    (hnd : (t.map Prod.fst).Nodup) (hnew : m.1 ∉ t.map Prod.fst) :
    merge t (append t m) = t ++ [m] := by
  unfold merge append
  rw [List.foldl_append, foldl_merge_member_of_subset t t hnd (fun _ h => h)]
  simp only [List.foldl_cons, List.foldl_nil]
  unfold merge_member
  rw [(has_tag_eq_false_iff m.1 t).mpr hnew]
  simp [append]

theorem merge_append_ordinal {V : Type} (t : List (Nat × V)) (v : V) (h : ordinal_tags t) :
    merge t (append t (tuple_size t, v)) = t ++ [(t.length, v)] := by
  unfold ordinal_tags at h
  apply merge_append_new
  · rw [h]; exact List.nodup_range _
  · rw [h]; simp [tuple_size]

theorem ordinal_tags_append_range {V : Type} (t l : List (Nat × V)) (h : ordinal_tags t)
    (hl : l.map Prod.fst = List.range' t.length l.length) : ordinal_tags (t ++ l) := by
  unfold ordinal_tags at *
  rw [List.map_append, h, hl, List.length_append, List.range_eq_range', List.range_eq_range']
  have := List.range'_append_1 0 t.length l.length
  rw [Nat.zero_add, Nat.add_comm l.length t.length] at this
  exact this

/-! ### Expected slots and stored arguments -/

theorem stored_arguments_length (l : List occurrence) (m : Nat) :
    (stored_arguments m l).length = (stored_arguments 0 l).length := by
  induction l generalizing m with
  | nil => rfl
  | cons o rest ih =>
    cases o with
    | parameter name T => simpa [stored_arguments] using ih m
    | literal v =>
      simp only [stored_arguments, List.length_cons]
      rw [ih (m + 1), ih (0 + 1)]

theorem slots_append (l1 l2 : List occurrence) (n m : Nat) :
    slots n m (l1 ++ l2)
      = slots n m l1 ++ slots (n + l1.length) (m + (stored_arguments 0 l1).length) l2 := by
  induction l1 generalizing n m with
  | nil => simp [slots, stored_arguments]
  | cons o rest ih =>
    cases o with
    | parameter name T =>
      have h1 : n + 1 + rest.length = n + (rest.length + 1) := by omega
      rw [List.cons_append]
      simp only [slots, stored_arguments, List.length_cons, List.cons_append]
      rw [ih, h1]
    | literal v =>
      have h1 : n + 1 + rest.length = n + (rest.length + 1) := by omega
      have h2 : m + 1 + (stored_arguments 0 rest).length
          = m + ((stored_arguments 0 rest).length + 1) := by omega
      rw [List.cons_append]
      simp only [slots, stored_arguments, List.length_cons, List.cons_append]
      rw [ih, h1, h2, stored_arguments_length rest (0 + 1)]

theorem stored_arguments_append (l1 l2 : List occurrence) (m : Nat) :
    stored_arguments m (l1 ++ l2)
      = stored_arguments m l1 ++ stored_arguments (m + (stored_arguments 0 l1).length) l2 := by
  induction l1 generalizing m with
  | nil => simp [stored_arguments]
  | cons o rest ih =>
    cases o with
    | parameter name T =>
      rw [List.cons_append]
      simp only [stored_arguments]
      exact ih m
    | literal v =>
      have h2 : m + 1 + (stored_arguments 0 rest).length
          = m + ((stored_arguments 0 rest).length + 1) := by omega
      rw [List.cons_append]
      simp only [stored_arguments, List.length_cons, List.cons_append]
      rw [ih, h2, stored_arguments_length rest (0 + 1)]

theorem slots_length (l : List occurrence) (n m : Nat) : (slots n m l).length = l.length := by
  induction l generalizing n m with
  | nil => rfl
  | cons o rest ih => cases o <;> simp [slots, ih]

theorem slots_tags (l : List occurrence) (n m : Nat) :
    (slots n m l).map Prod.fst = List.range' n l.length := by
  induction l generalizing n m with
  | nil => rfl
  | cons o rest ih => cases o <;> simp [slots, ih, List.range'_succ]

theorem stored_arguments_tags (l : List occurrence) (m : Nat) :
    (stored_arguments m l).map Prod.fst = List.range' m (stored_arguments m l).length := by
  induction l generalizing m with
  | nil => rfl
  | cons o rest ih =>
    cases o with
    | parameter name T => simpa [stored_arguments] using ih m
    | literal v => simp [stored_arguments, ih, List.range'_succ]

theorem slots_getElem_parameter (l : List occurrence) (n m i : Nat) (name : Tag) (T : CppType)
    (h : l[i]? = some (occurrence.parameter name T)) :
    (slots n m l)[i]? = some (n + i, parameters_ref_value.parameter_ref name T) := by
  induction l generalizing n m i with
  | nil => simp at h
  | cons o rest ih =>
    cases i with
    | zero =>
      simp only [List.getElem?_cons_zero, Option.some.injEq] at h
      subst h
      simp [slots]
    | succ j =>
      simp only [List.getElem?_cons_succ] at h
      cases o with
      | parameter name1 T1 =>
        simp only [slots, List.getElem?_cons_succ]
        rw [ih (n + 1) m j h]
        congr 2
        omega
      | literal w =>
        simp only [slots, List.getElem?_cons_succ]
        rw [ih (n + 1) (m + 1) j h]
        congr 2
        omega

theorem slots_getElem_literal (l : List occurrence) (n m i : Nat) (v : Literal)
    (h : l[i]? = some (occurrence.literal v)) :
    ∃ k, m ≤ k ∧
      (slots n m l)[i]? = some (n + i, parameters_ref_value.type_ref_SizeArguments k) ∧
      (stored_arguments m l)[k - m]? = some (k, v) := by
  induction l generalizing n m i with
  | nil => simp at h
  | cons o rest ih =>
    cases i with
    | zero =>
      simp only [List.getElem?_cons_zero, Option.some.injEq] at h
      subst h
      exact ⟨m, le_refl m, by simp [slots], by simp [stored_arguments]⟩
    | succ j =>
      simp only [List.getElem?_cons_succ] at h
      cases o with
      | parameter name1 T1 =>
        obtain ⟨k, hk, hs, ha⟩ := ih (n + 1) m j h
        refine ⟨k, hk, ?_, ?_⟩
        · simp only [slots, List.getElem?_cons_succ]
          rw [hs]
          congr 2
          omega
        · simpa [stored_arguments] using ha
      | literal w =>
        obtain ⟨k, hk, hs, ha⟩ := ih (n + 1) (m + 1) j h
        refine ⟨k, by omega, ?_, ?_⟩
        · simp only [slots, List.getElem?_cons_succ]
          rw [hs]
          congr 2
          omega
        · have hkm : k - m = (k - (m + 1)) + 1 := by omega
          simp only [stored_arguments]
          rw [hkm, List.getElem?_cons_succ]
          exact ha

theorem slots_countP (l : List occurrence) (n m : Nat) (name : Tag) (T : CppType) :
    (slots n m l).countP (fun s => decide (s.2 = parameters_ref_value.parameter_ref name T))
      = l.countP (fun o => decide (o = occurrence.parameter name T)) := by
  induction l generalizing n m with
  | nil => rfl
  | cons o rest ih =>
    cases o with
    | parameter name1 T1 => simp [slots, List.countP_cons, ih]
    | literal w => simp [slots, List.countP_cons, ih]

/-! ### What `process` does to the parameter and argument lists -/

theorem process_column_ref_frame (db : define_database) (Column : Tag) (Table : Option Tag)
    (tt tt1 : TT) (h : process_column_ref db Column Table tt = Except.ok tt1) :
    tt1.parameters_ref = tt.parameters_ref ∧ tt1.arguments = tt.arguments := by
  simp only [process_column_ref] at h
  split at h
  · cases h
  · split at h
    · cases h
    · split at h
      · cases h
      · simp only [Except.ok.injEq] at h
        subst h
        exact ⟨rfl, rfl⟩

theorem process_slots (db : define_database) (e : Expr) (tt tt1 : TT)
    (hpr : ordinal_tags (tt.parameters_ref.getD []))
    (harg : ordinal_tags (tt.arguments.getD []))
    (h : process db e tt = Except.ok tt1) :
    tt1.parameters_ref.getD [] = tt.parameters_ref.getD [] ++
        slots (tt.parameters_ref.getD []).length (tt.arguments.getD []).length (occurrences e) ∧
    tt1.arguments.getD [] = tt.arguments.getD [] ++
        stored_arguments (tt.arguments.getD []).length (occurrences e) := by
  induction e generalizing tt tt1 with
  | parameter_ref Name T =>
    simp only [process, process_parameter_ref, Except.ok.injEq] at h
    subst h
    simp only [add_tag_if_not_present_arguments, add_tag_if_not_present_parameters_ref,
      Option.getD_some, occurrences, slots, stored_arguments, List.append_nil]
    refine ⟨?_, trivial⟩
    exact merge_append_ordinal _ _ hpr
  | val_holder v =>
    simp only [process, process_val_holder, Except.ok.injEq] at h
    subst h
    simp only [add_tag_if_not_present_arguments, add_tag_if_not_present_parameters_ref,
      Option.getD_some, occurrences, slots, stored_arguments]
    refine ⟨?_, ?_⟩
    · rw [merge_append_ordinal _ _ hpr]; rfl
    · rw [merge_append_ordinal _ _ harg]
  | column_ref Column Table =>
    simp only [process] at h
    obtain ⟨h1, h2⟩ := process_column_ref_frame db Column Table tt tt1 h
    simp [h1, h2, occurrences, slots, stored_arguments]
  | binary_expression bo e1 e2 ih1 ih2 =>
    simp only [process] at h
    split at h
    · cases h
    · rename_i tt_left hleft
      split at h
      · cases h
      · rename_i tt_right hright
        obtain ⟨hp1, ha1⟩ := ih1 tt tt_left hpr harg hleft
        have hpr1 : ordinal_tags (tt_left.parameters_ref.getD []) := by
          rw [hp1]
          apply ordinal_tags_append_range _ _ hpr
          rw [slots_tags, slots_length]
        have harg1 : ordinal_tags (tt_left.arguments.getD []) := by
          rw [ha1]
          apply ordinal_tags_append_range _ _ harg
          exact stored_arguments_tags _ _
        obtain ⟨hp2, ha2⟩ := ih2 tt_left tt_right hpr1 harg1 hright
        have hres : tt1.parameters_ref = tt_right.parameters_ref ∧
            tt1.arguments = tt_right.arguments := by
          split at h
          · split at h
            · split at h
              · simp only [Except.ok.injEq] at h
                subst h
                exact ⟨rfl, rfl⟩
              · cases h
            · cases h
          · cases h
        rw [hres.1, hres.2, hp2, ha2, hp1, ha1]
        simp only [occurrences, slots_append, stored_arguments_append, List.length_append,
          slots_length, List.append_assoc, stored_arguments_length _ (tt.arguments.getD []).length]
        exact ⟨trivial, trivial⟩

/-! ### Column references (C1 to C5) -/

theorem has_column_eq_some (db : define_database) (Table : Option Tag) (Column : Tag) (b : Bool)
    (h : has_column db Table Column = some b) :
    b = true ∧ ∃ tb, table_type db Table = some tb ∧
      (get_column_type tb.columns Column).isSome = true := by
  unfold has_column at h
  split at h
  · cases h
  · rename_i tb htb
    split at h
    · rename_i hc
      simp only [Option.some.injEq] at h
      exact ⟨h.symm, tb, htb, hc⟩
    · cases h

theorem table_type_unique (db : define_database) (Table : Tag) (tb x : define_table)
    (h : table_type db (some Table) = some tb) (hx : x ∈ db) (ht : x.table_tag_type = Table) :
    x = tb := by
  unfold table_type at h
  simp only [] at h
  split at h
  · rename_i y hy
    cases h
    have hmem : x ∈ db.filter (fun tb => decide (tb.table_tag_type = Table)) :=
      List.mem_filter.mpr ⟨hx, by simpa using ht⟩
    rw [hy] at hmem
    exact List.mem_singleton.mp hmem
  · cases h

theorem declares_of_get_column_type (tb : define_table) (Column : Tag)
    (h : (get_column_type tb.columns Column).isSome = true) : declares tb Column = true := by
  obtain ⟨c, hc⟩ := Option.isSome_iff_exists.mp h
  have hm := get_column_type_some tb.columns Column c hc
  unfold declares
  rw [List.any_eq_true]
  exact ⟨c, hm.1, by simpa using hm.2⟩

theorem mapM_has_column_declares (db : define_database) (Column : Tag) (l : List define_table)
    (hl : ∀ tb ∈ l, tb ∈ db) (bs : List Bool)
    (h : l.mapM (fun tb => has_column db (some tb.table_tag_type) Column) = some bs) :
    ∀ tb ∈ l, declares tb Column = true := by
  induction l generalizing bs with
  | nil =>
    intro tb htb
    cases htb
  | cons a rest ih =>
    rw [List.mapM_cons] at h
    cases ha : has_column db (some a.table_tag_type) Column with
    | none =>
      rw [ha] at h
      cases h
    | some b =>
      rw [ha] at h
      cases hr : rest.mapM (fun tb => has_column db (some tb.table_tag_type) Column) with
      | none =>
        rw [hr] at h
        cases h
      | some bs2 =>
        obtain ⟨_, tb2, htb2, hc2⟩ := has_column_eq_some db _ Column b ha
        have hax : a = tb2 :=
          table_type_unique db a.table_tag_type tb2 a htb2 (hl a (List.mem_cons_self a rest)) rfl
        intro tb htb
        rcases List.mem_cons.mp htb with heq | hmem
        · rw [heq, hax]
          exact declares_of_get_column_type tb2 Column hc2
        · exact ih (fun x hx => hl x (List.mem_cons_of_mem a hx)) bs2 hr tb hmem

theorem has_unique_column_some (db : define_database) (Column : Tag) (b : Bool)
    (h : has_unique_column db Column = some b) :
    ∃ first second Tables, db = first :: second :: Tables ∧
      ∀ tb ∈ second :: Tables, declares tb Column = true := by
  unfold has_unique_column has_unique_column_helper at h
  cases db with
  | nil => cases h
  | cons first Tables =>
    simp only [] at h
    cases hm : Tables.mapM
        (fun tb => has_column (first :: Tables) (some tb.table_tag_type) Column) with
    | none =>
      rw [hm] at h
      cases h
    | some bs =>
      have hd := mapM_has_column_declares (first :: Tables) Column Tables
        (fun tb htb => List.mem_cons_of_mem first htb) bs hm
      cases Tables with
      | nil =>
        rw [List.mapM_nil] at hm
        cases hm
        rw [List.mapM_nil] at h
        cases h
      | cons second rest => exact ⟨first, second, rest, rfl, hd⟩

theorem process_unqualified_ok (db : define_database) (Column : Tag) (tt tt1 : TT)
    (h : process db (Expr.column_ref Column none) tt = Except.ok tt1) :
    has_unique_column db Column = some true := by
  simp only [process, process_column_ref] at h
  cases hu : has_unique_column db Column with
  | none =>
    rw [hu] at h
    cases h
  | some b =>
    cases b
    · rw [hu] at h
      cases h
    · rfl

/-- C1: the unqualified column `name` is declared by exactly one table of the
schema customers(id, name), orders(id, item, customerid, price), yet the
uniqueness check `has_unique_column` has no value for it: its fold skips the
first table of the schema, customers, and the one operand left,
`has_column<db, orders, name>`, does not compile because orders lacks the
column.  Processing the reference fails from every accumulated tuple.  For
every schema, an unqualified reference to a column that exactly one table
declares is accepted only when the schema has exactly two tables and the second
one declares the column. -/
theorem C1_first_table_column_rejected :
    (example_db.filter (fun tb => declares tb "name")).map (fun tb => tb.table_tag_type)
        = ["customers"] ∧
    has_column example_db (some "orders") "name" = none ∧
    has_unique_column example_db "name" = none ∧
    (∀ tt : TT, process example_db (Expr.column_ref "name" none) tt
        = Except.error (CompileError.ill_formed "detail::has_unique_column<Database, Column>")) ∧
    (∀ (db : define_database) (Column : Tag) (tt tt1 : TT),
        (db.filter (fun tb => declares tb Column)).length = 1 →
        process db (Expr.column_ref Column none) tt = Except.ok tt1 →
        ∃ first second, db = [first, second] ∧ declares first Column = false ∧
          declares second Column = true) := by
  refine ⟨by decide, by decide, by decide, ?_, ?_⟩
  · intro tt
    have hu : has_unique_column example_db "name" = none := by decide
    simp only [process, process_column_ref, hu]
  · intro db Column tt tt1 hone hok
    obtain ⟨first, second, Tables, hdb, hall⟩ :=
      has_unique_column_some db Column true (process_unqualified_ok db Column tt tt1 hok)
    subst hdb
    have hrest : (second :: Tables).filter (fun tb => declares tb Column) = second :: Tables :=
      List.filter_eq_self.mpr hall
    cases hf : declares first Column with
    | true =>
      rw [List.filter_cons_of_pos (by simpa using hf), hrest] at hone
      simp at hone
    | false =>
      rw [List.filter_cons_of_neg (by simp [hf]), hrest] at hone
      have hnil : Tables = [] := by
        cases Tables with
        | nil => rfl
        | cons a rest => simp at hone
      subst hnil
      exact ⟨first, second, rfl, hf, hall second (List.mem_cons_self second [])⟩

/-- C2: when two or more tables of the schema declare a column name, processing
an unqualified reference to it fails, from every accumulated tuple (whatever
tables were referenced so far). -/
theorem C2_ambiguous_unqualified_column_fails (db : define_database) (Column : Tag) (tt : TT)
    (h : 2 ≤ (db.filter (fun tb => declares tb Column)).length) :
    ∃ err, process db (Expr.column_ref Column none) tt = Except.error err := by
  have hnone : table_column_type db none Column = none := by
    unfold table_column_type
    simp only []
    rw [get_column_type_none_of_two _ _ (le_trans h (declaring_tables_le_bases db Column))]
    rfl
  simp only [process, process_column_ref]
  cases hu : has_unique_column db Column with
  | none => exact ⟨_, rfl⟩
  | some b =>
    cases b
    · exact ⟨_, rfl⟩
    · simp only [has_tag_Table, hnone]
      exact ⟨_, rfl⟩

/-- C2 at `id`, which both customers and orders declare. -/
theorem C2_witness :
    2 ≤ (example_db.filter (fun tb => declares tb "id")).length ∧
    ∃ err, process example_db (Expr.column_ref "id" none) make_ttuple = Except.error err :=
  ⟨by decide, C2_ambiguous_unqualified_column_fails example_db "id" make_ttuple (by decide)⟩

/-- C3: the schema has table `item` and that table declares `id`, and `item.id`
is not among the selected columns, yet from a tuple whose selected-columns set
has a member tagged `item` processing `item.id` fails with "Column already
selected": the guard looks up the table tag, not the column reference.  And for
`orders.name`, where the table exists but lacks the column, `has_column` has no
value and the reference is rejected as a call without viable overload, not as a
missing column; no reference and no tuple make `process` fail with "Missing
column". -/
theorem C3_qualified_reference_rejected :
    has_table item_db (some "item") = true ∧
    has_column item_db (some "item") "id" = some true ∧
    has_tag (selected_tag.column_ref "id" (some "item"))
        (item_aliased_tt.selected_columns.getD []) = false ∧
    process item_db (Expr.column_ref "id" (some "item")) item_aliased_tt
      = Except.error (CompileError.static_assert "Column already selected") ∧
    has_table example_db (some "orders") = true ∧
    has_column example_db (some "orders") "name" = none ∧
    (∀ tt : TT, process example_db (Expr.column_ref "name" (some "orders")) tt
      = Except.error (CompileError.ill_formed "detail::has_column<Database, Table, Column>")) ∧
    (∀ (db : define_database) (Column : Tag) (Table : Option Tag) (tt : TT),
      process db (Expr.column_ref Column Table) tt
        ≠ Except.error (CompileError.static_assert "Missing column")) := by
  refine ⟨by decide, by decide, by decide, by rfl, by decide, by decide, ?_, ?_⟩
  · intro tt
    have ht : has_table example_db (some "orders") = true := by decide
    have hc : has_column example_db (some "orders") "name" = none := by decide
    simp only [process, process_column_ref, ht, hc, if_true]
  · intro db Column Table tt h
    simp only [process, process_column_ref] at h
    cases Table with
    | none =>
      simp only [] at h
      cases hu : has_unique_column db Column with
      | none =>
        rw [hu] at h
        simp at h
      | some b =>
        rw [hu] at h
        cases b
        · simp at h
        · simp only [] at h
          split at h
          · simp at h
          · split at h <;> simp at h
    | some Table =>
      simp only [] at h
      cases ht : has_table db (some Table) with
      | false =>
        rw [ht] at h
        simp at h
      | true =>
        rw [ht] at h
        simp only [if_true] at h
        cases hc : has_column db (some Table) Column with
        | none =>
          rw [hc] at h
          simp at h
        | some b =>
          have hb := (has_column_eq_some db (some Table) Column b hc).1
          subst hb
          rw [hc] at h
          simp only [] at h
          split at h
          · simp at h
          · split at h <;> simp at h

/-- C4: a select list naming `orders.id` twice is accepted, not rejected with
"Column already selected", and the selected-columns set then holds the column
once. -/
theorem C4_duplicate_column_accepted :
    process_helper example_db make_ttuple [orders_id, orders_id]
      = Except.ok { make_ttuple with
          selected_columns :=
            some [(selected_tag.column_ref "id" (some "orders"), CppType.type_ref CppType.int64_t)],
          type := some (CppType.type_ref CppType.int64_t) } := by
  rfl

/-- C5: `build` accepts a query selecting `orders.id, item`, and its row type
has five entries: the columns of the ON and WHERE expressions follow the two
selected ones. -/
theorem C5_where_columns_enter_row_type :
    (build example_db orders_query).toOption.bind row_type_t
      = some [ (selected_tag.column_ref "id" (some "orders"), CppType.std_optional CppType.int64_t),
               (selected_tag.column_ref "item" none, CppType.std_optional CppType.std_string_view),
               (selected_tag.column_ref "id" (some "customers"), CppType.std_optional CppType.int64_t),
               (selected_tag.column_ref "customerid" none, CppType.std_optional CppType.int64_t),
               (selected_tag.column_ref "price" none, CppType.std_optional CppType.double_) ] ∧
    orders_query.select_tag.map (fun s => s.map SelectItem.tag)
      = some [selected_tag.column_ref "id" (some "orders"), selected_tag.column_ref "item" none] := by
  decide

/-! ### Binary operations (C6 to C8) -/

/-- C6: for parameters `a`, `b`, `c` of type `double`, processing `a + b`
records `type_ref<type_ref<double>>`, not the `type_ref<double>` an operand of
type `double` carries, and processing `a + b > c` fails on the assertion that
both operand types are the same. -/
theorem C6_arithmetic_result_is_wrapped (db : define_database) (tt : TT) :
    process db a_plus_b tt = Except.ok
      { process_parameter_ref "b" CppType.double_ (process_parameter_ref "a" CppType.double_ tt) with
        type := some (CppType.type_ref (CppType.type_ref CppType.double_)) } ∧
    process db a_plus_b_greater_c tt
      = Except.error (CompileError.static_assert "std::is_same_v<left_type, right_type>") := by
  have hab : process db a_plus_b tt = Except.ok
      { process_parameter_ref "b" CppType.double_ (process_parameter_ref "a" CppType.double_ tt) with
        type := some (CppType.type_ref (CppType.type_ref CppType.double_)) } :=
    process_binary_same_type db binary_ops.add_ (Expr.parameter_ref "a" CppType.double_)
      (Expr.parameter_ref "b" CppType.double_) tt (process_parameter_ref "a" CppType.double_ tt)
      (process_parameter_ref "b" CppType.double_ (process_parameter_ref "a" CppType.double_ tt))
      (CppType.type_ref CppType.double_) rfl rfl rfl rfl
  refine ⟨hab, ?_⟩
  exact process_binary_type_mismatch db binary_ops.greater_ a_plus_b
    (Expr.parameter_ref "c" CppType.double_) tt _ _ hab rfl (by simp [process_parameter_ref])

/-- C7: a binary operation with a comparison or boolean operator whose operands
resolve, one after the other, to the same type succeeds and records
`type_ref<bool>`; consequently its conjunction or disjunction with a second such
operation succeeds as well, with `type_ref<bool>`. -/
theorem C7_comparison_type_is_bool (db : define_database) (bo : binary_ops) (e1 e2 : Expr)
    (tt tt_left tt_right : TT)
    (hbo : bo ∈ comparison_or_boolean)
    (h1 : process db e1 tt = Except.ok tt_left) (h2 : process db e2 tt_left = Except.ok tt_right)
    (hty : tt_left.type = tt_right.type) :
    process db (Expr.binary_expression bo e1 e2) tt
      = Except.ok { tt_right with type := some (CppType.type_ref CppType.bool_) } ∧
    ∀ (connective bo2 : binary_ops) (e3 e4 : Expr) (tt3 tt4 : TT),
      connective ∈ [binary_ops.and_, binary_ops.or_] → bo2 ∈ comparison_or_boolean →
      process db e3 { tt_right with type := some (CppType.type_ref CppType.bool_) } = Except.ok tt3 →
      process db e4 tt3 = Except.ok tt4 → tt3.type = tt4.type →
      process db (Expr.binary_expression connective
          (Expr.binary_expression bo e1 e2) (Expr.binary_expression bo2 e3 e4)) tt
        = Except.ok { tt4 with type := some (CppType.type_ref CppType.bool_) } := by
  have hfirst := process_binary_comparison db bo e1 e2 tt tt_left tt_right hbo h1 h2 hty
  refine ⟨hfirst, ?_⟩
  intro connective bo2 e3 e4 tt3 tt4 hconn hbo2 h3 h4 hty2
  have hc : connective ∈ comparison_or_boolean := by
    simp only [List.mem_cons, List.mem_singleton, List.not_mem_nil, or_false] at hconn
    rcases hconn with h | h <;> subst h <;> decide
  exact process_binary_comparison db connective _ _ tt _
    { tt4 with type := some (CppType.type_ref CppType.bool_) } hc hfirst
    (process_binary_comparison db bo2 e3 e4 _ tt3 tt4 hbo2 h3 h4 hty2) rfl

/-- C7 at `orders.price > ?min_price:double and orders.item = ?item:string`. -/
theorem C7_witness :
    ∃ tt1, process example_db price_and_item make_ttuple = Except.ok tt1 ∧
      tt1.type = some (CppType.type_ref CppType.bool_) :=
  ⟨_, (C7_comparison_type_is_bool example_db binary_ops.greater_
        (Expr.column_ref "price" (some "orders")) (Expr.parameter_ref "min_price" CppType.double_)
        make_ttuple _ _ (by decide) rfl rfl rfl).2
        binary_ops.and_ binary_ops.equal_
        (Expr.column_ref "item" (some "orders")) (Expr.parameter_ref "item" CppType.std_string)
        _ _ (by decide) (by decide) rfl rfl rfl,
   rfl⟩

/-- C8: a binary operation, of any operator, whose operands resolve to
different types fails on the assertion that both operand types are the same. -/
theorem C8_operand_type_mismatch_fails (db : define_database) (bo : binary_ops) (e1 e2 : Expr)
    (tt tt_left tt_right : TT)
    (h1 : process db e1 tt = Except.ok tt_left) (h2 : process db e2 tt_left = Except.ok tt_right)
    (hne : tt_left.type ≠ tt_right.type) :
    process db (Expr.binary_expression bo e1 e2) tt
      = Except.error (CompileError.static_assert "std::is_same_v<left_type, right_type>") :=
  process_binary_type_mismatch db bo e1 e2 tt tt_left tt_right h1 h2 hne

/-- C8 at `orders.price > val(1400)`: a `double` column and an integer literal. -/
theorem C8_witness :
    process example_db price_greater_1400 make_ttuple
      = Except.error (CompileError.static_assert "std::is_same_v<left_type, right_type>") :=
  C8_operand_type_mismatch_fails example_db binary_ops.greater_
    (Expr.column_ref "price" (some "orders")) (Expr.val_holder (Literal.int64 1400))
    make_ttuple _ _ rfl rfl (by decide)

/-! ### Parameters, literals and rendering (C9, C10) -/

/-- C9: when processing an expression succeeds from a tuple whose parameter and
argument lists are tagged `0, 1, 2, ...`, the parameter list grows by exactly
one slot per occurrence of a parameter reference or literal, in left-to-right
order; the slots are tagged with the next consecutive ordinals; the slot of a
parameter reference holds that occurrence's name and type, the slot of a literal
the index under which the literal's value is stored in the argument list; and a
name is stored once per occurrence. -/
theorem C9_parameter_slots (db : define_database) (e : Expr) (tt tt1 : TT)
    (hpr : ordinal_tags (tt.parameters_ref.getD []))
    (harg : ordinal_tags (tt.arguments.getD []))
    (h : process db e tt = Except.ok tt1) :
    tt1.parameters_ref.getD [] = tt.parameters_ref.getD [] ++
        slots (tt.parameters_ref.getD []).length (tt.arguments.getD []).length (occurrences e) ∧
    (tt1.parameters_ref.getD []).length
        = (tt.parameters_ref.getD []).length + (occurrences e).length ∧
    (tt1.parameters_ref.getD []).map Prod.fst
        = List.range ((tt.parameters_ref.getD []).length + (occurrences e).length) ∧
    (∀ i name T, (occurrences e)[i]? = some (occurrence.parameter name T) →
        (tt1.parameters_ref.getD [])[(tt.parameters_ref.getD []).length + i]?
          = some ((tt.parameters_ref.getD []).length + i,
                  parameters_ref_value.parameter_ref name T)) ∧
    (∀ i v, (occurrences e)[i]? = some (occurrence.literal v) →
        ∃ k, (tt1.parameters_ref.getD [])[(tt.parameters_ref.getD []).length + i]?
          = some ((tt.parameters_ref.getD []).length + i,
                  parameters_ref_value.type_ref_SizeArguments k) ∧
          (tt1.arguments.getD [])[k]? = some (k, v)) ∧
    (∀ name T,
        ((tt1.parameters_ref.getD []).drop (tt.parameters_ref.getD []).length).countP
            (fun s => decide (s.2 = parameters_ref_value.parameter_ref name T))
          = (occurrences e).countP (fun o => decide (o = occurrence.parameter name T))) := by
  obtain ⟨hp, ha⟩ := process_slots db e tt tt1 hpr harg h
  refine ⟨hp, ?_, ?_, ?_, ?_, ?_⟩
  · rw [hp, List.length_append, slots_length]
  · have ht := ordinal_tags_append_range _ _ hpr
      (by rw [slots_tags, slots_length] :
        (slots (tt.parameters_ref.getD []).length (tt.arguments.getD []).length
          (occurrences e)).map Prod.fst = List.range' (tt.parameters_ref.getD []).length
            (slots (tt.parameters_ref.getD []).length (tt.arguments.getD []).length
              (occurrences e)).length)
    unfold ordinal_tags at ht
    rw [hp, ht, List.length_append, slots_length]
  · intro i name T hi
    rw [hp, List.getElem?_append_right (Nat.le_add_right _ _), Nat.add_sub_cancel_left]
    exact slots_getElem_parameter _ _ _ _ _ _ hi
  · intro i v hi
    obtain ⟨k, hk, hs, hv⟩ := slots_getElem_literal (occurrences e)
      (tt.parameters_ref.getD []).length (tt.arguments.getD []).length i v hi
    refine ⟨k, ?_, ?_⟩
    · rw [hp, List.getElem?_append_right (Nat.le_add_right _ _), Nat.add_sub_cancel_left]
      exact hs
    · rw [ha, List.getElem?_append_right hk]
      exact hv
  · intro name T
    rw [hp, List.drop_left]
    exact slots_countP _ _ _ _ _

/-- C9 at an expression in which the name `p` occurs twice, around a literal:
three slots, tagged 0, 1, 2. -/
theorem C9_witness :
    process example_db repeated_name make_ttuple = Except.ok repeated_name_tt ∧
    repeated_name_tt.parameters_ref.getD []
      = [(0, parameters_ref_value.parameter_ref "p" CppType.double_),
         (1, parameters_ref_value.type_ref_SizeArguments 0),
         (2, parameters_ref_value.parameter_ref "p" CppType.int64_t)] :=
  ⟨rfl, (C9_parameter_slots example_db repeated_name make_ttuple repeated_name_tt rfl rfl rfl).1⟩

/-- C10: `build` accepts a query whose where expression compares a column with
the string literal `John`; its binding plan has one slot, for that literal, but
the rendered statement contains the text `John` and no `?` at all. -/
theorem C10_string_literal_rendered_inline :
    (build example_db john_query).toOption.map (fun q => q.tt.parameters_ref)
      = some (some [(0, parameters_ref_value.type_ref_SizeArguments 0)]) ∧
    (build example_db john_query).toOption.bind (fun q => to_statement q.t_)
      = some "SELECT orders.id, item\nFROM orders JOIN customers ON customers.id = customerid\n\nWHERE customers.name = John" ∧
    ((build example_db john_query).toOption.bind (fun q => to_statement q.t_)).map
        (fun statement => statement.data.count '?') = some 0 := by
  decide

/-! ### `join_vector` -/

theorem foldl_join_vector_data (v : List String) (acc : String) :
    (v.foldl (fun ret s => ret ++ (s ++ ", ")) acc).data
      = acc.data ++ v.flatMap (fun s => s.data ++ [',', ' ']) := by
  induction v generalizing acc with
  | nil => simp
  | cons a rest ih =>
    rw [List.foldl_cons, ih]
    simp [String.data_append, List.append_assoc]

theorem intercalate_go_data (acc s : String) (l : List String) :
    (String.intercalate.go acc s l).data = acc.data ++ l.flatMap (fun a => s.data ++ a.data) := by
  induction l generalizing acc with
  | nil => simp [String.intercalate.go]
  | cons a rest ih =>
    rw [String.intercalate.go, ih]
    simp [String.data_append, List.append_assoc]

theorem separator_shift (l : List String) (sep : List Char) :
    sep ++ l.flatMap (fun s => s.data ++ sep) = l.flatMap (fun s => sep ++ s.data) ++ sep := by
  induction l with
  | nil => simp
  | cons a rest ih =>
    simp only [List.flatMap_cons, List.append_assoc]
    rw [ih]

theorem join_vector_data (a : String) (rest : List String) :
    ((a :: rest).foldl (fun ret s => ret ++ (s ++ ", ")) "").data
      = (String.intercalate ", " (a :: rest)).data ++ [',', ' '] := by
  rw [foldl_join_vector_data]
  simp only [String.intercalate, intercalate_go_data, List.flatMap_cons, List.append_assoc]
  have h := separator_shift rest [',', ' ']
  simp only [List.append_assoc] at h
  simpa using h

theorem join_vector_cons (a : String) (rest : List String) :
    join_vector (a :: rest) = some (String.intercalate ", " (a :: rest)) := by
  unfold join_vector
  simp only []
  rw [join_vector_data]
  simp

/-! ### Frames of the select list and of table references -/

theorem moved_from_of_arguments_none (tt : TT) (h : tt.arguments = none) : moved_from tt = tt := by
  cases tt
  simp only [] at h
  subst h
  rfl

theorem process_table_ref_frame (db : define_database) (Table : Tag) (tt tt1 : TT)
    (h : process_table_ref db Table tt = Except.ok tt1) :
    tt1.parameters_ref = tt.parameters_ref ∧ (tt.arguments = none → tt1.arguments = tt.arguments) ∧
    tt1.type = tt.type ∧ tt1.aliases = tt.aliases ∧
    tt1.selected_columns = tt.selected_columns ∧ tt1.cout = tt.cout := by
  unfold process_table_ref at h
  split at h
  · simp only [] at h
    split at h
    · simp only [Except.ok.injEq] at h
      subst h
      simp [add_tag_if_not_present_referenced_tables]
    · simp only [Except.ok.injEq] at h
      subst h
      refine ⟨rfl, ?_, rfl, rfl, rfl, rfl⟩
      intro ha
      rw [moved_from_of_arguments_none tt ha]
  · cases h

theorem process_column_alias_ref_frame (db : define_database) (Alias Column : Tag)
    (Table : Option Tag) (tt tt1 : TT)
    (h : process_column_alias_ref db Alias Column Table tt = Except.ok tt1) :
    tt1.parameters_ref = tt.parameters_ref ∧ tt1.arguments = tt.arguments ∧
    tt1.type = tt.type ∧ tt1.referenced_tables = tt.referenced_tables ∧ tt1.cout = tt.cout := by
  unfold process_column_alias_ref at h
  split at h
  · split at h
    · cases h
    · cases h
    · simp only [] at h
      split at h
      · cases h
      · split at h
        · cases h
        · simp only [Except.ok.injEq] at h
          subst h
          simp [add_tag_if_not_present_aliases]
  · cases h

theorem process_helper_frame (db : define_database) (s : List SelectItem) (tt tt1 : TT)
    (h : process_helper db tt s = Except.ok tt1) :
    tt1.parameters_ref = tt.parameters_ref ∧ tt1.arguments = tt.arguments := by
  induction s generalizing tt with
  | nil =>
    simp only [process_helper, Except.ok.injEq] at h
    subst h
    exact ⟨rfl, rfl⟩
  | cons c rest ih =>
    simp only [process_helper] at h
    split at h
    · cases h
    · rename_i tt2 h2
      obtain ⟨hp, ha⟩ := ih tt2 h
      have h3 : tt2.parameters_ref = tt.parameters_ref ∧ tt2.arguments = tt.arguments := by
        cases c with
        | column Column Table =>
          simp only [process_select_item, process] at h2
          exact process_column_ref_frame db Column Table tt tt2 h2
        | column_alias_ref Alias Column Table =>
          simp only [process_select_item] at h2
          have := process_column_alias_ref_frame db Alias Column Table tt tt2 h2
          exact ⟨this.1, this.2.1⟩
      exact ⟨hp.trans h3.1, ha.trans h3.2⟩

/-! ### What an accepted query looks like -/

theorem build_ok (db : define_database) (q : query_tuple) (bq : built_query)
    (h : build db q = Except.ok bq) :
    bq.t_ = q ∧
    ∃ s t1 t2 e kind w tt_select tt1 tt2 tt_from,
      q.select_tag = some s ∧ q.from_tag = some (FromClause.join_t t1 t2 e kind) ∧
      q.where_tag = some w ∧
      process_helper db make_ttuple s = Except.ok tt_select ∧
      process_table_ref db t1 tt_select = Except.ok tt1 ∧
      process_table_ref db t2 tt1 = Except.ok tt2 ∧
      process db e tt2 = Except.ok tt_from ∧
      process db w tt_from = Except.ok bq.tt := by
  unfold build at h
  split at h
  · cases h
  · rename_i s hs
    split at h
    · cases h
    · rename_i tt_select hsel
      split at h
      · cases h
      · rename_i f hf
        split at h
        · cases h
        · rename_i tt_from hfrom
          split at h
          · cases h
          · rename_i w hw
            split at h
            · cases h
            · rename_i tt_where hwhere
              simp only [Except.ok.injEq] at h
              subst h
              refine ⟨rfl, ?_⟩
              cases f with
              | from_type Table => simp [process_from_tag] at hfrom
              | join_t t1 t2 e kind =>
                simp only [process_from_tag, process_join_t] at hfrom
                split at hfrom
                · cases hfrom
                · rename_i tt1 h1
                  split at hfrom
                  · cases hfrom
                  · rename_i tt2 h2
                    exact ⟨s, t1, t2, e, kind, w, tt_select, tt1, tt2, tt_from, hs, hf, hw,
                      hsel, h1, h2, hfrom, hwhere⟩

theorem build_slots (db : define_database) (q : query_tuple) (bq : built_query)
    (s : List SelectItem) (t1 t2 : Tag) (e : Expr) (kind : join_type) (w : Expr)
    (hs : q.select_tag = some s) (hf : q.from_tag = some (FromClause.join_t t1 t2 e kind))
    (hw : q.where_tag = some w) (h : build db q = Except.ok bq) :
    bq.tt.parameters_ref.getD [] = slots 0 0 (occurrences e ++ occurrences w) ∧
    bq.tt.arguments.getD [] = stored_arguments 0 (occurrences e ++ occurrences w) := by
  obtain ⟨_, s1, a1, a2, e1, kind1, w1, tt_select, tt1, tt2, tt_from, hs1, hf1, hw1,
    hsel, h1, h2, hon, hwhere⟩ := build_ok db q bq h
  rw [hs] at hs1
  rw [hf] at hf1
  rw [hw] at hw1
  cases hs1
  cases hf1
  cases hw1
  have fs := process_helper_frame db s make_ttuple tt_select hsel
  have f1 := process_table_ref_frame db t1 tt_select tt1 h1
  have f2 := process_table_ref_frame db t2 tt1 tt2 h2
  have hp2 : tt2.parameters_ref = none := by rw [f2.1, f1.1, fs.1]; rfl
  have ha0 : tt_select.arguments = none := by rw [fs.2]; rfl
  have ha1 : tt1.arguments = none := by rw [f1.2.1 ha0, ha0]
  have ha2 : tt2.arguments = none := by rw [f2.2.1 ha1, ha1]
  have hon2 := process_slots db e tt2 tt_from (by rw [hp2]; rfl) (by rw [ha2]; rfl) hon
  rw [hp2, ha2] at hon2
  simp only [Option.getD_none, List.nil_append, List.length_nil] at hon2
  have hpr : ordinal_tags (tt_from.parameters_ref.getD []) := by
    rw [hon2.1]
    unfold ordinal_tags
    rw [slots_tags, slots_length, List.range_eq_range']
  have harg : ordinal_tags (tt_from.arguments.getD []) := by
    rw [hon2.2]
    unfold ordinal_tags
    rw [stored_arguments_tags, List.range_eq_range']
  have hwh := process_slots db w tt_from bq.tt hpr harg hwhere
  rw [hwh.1, hwh.2, hon2.1, hon2.2, slots_append, stored_arguments_append, slots_length]
  simp

theorem to_statement_select_type_ne_nil (s : List SelectItem) (hs : s ≠ []) :
    to_statement_select_type s
      = some ("SELECT " ++ String.intercalate ", " (s.map to_column_string)) := by
  cases s with
  | nil => exact absurd rfl hs
  | cons a rest =>
    unfold to_statement_select_type
    rw [List.map_cons, join_vector_cons]
    rfl

theorem to_statement_inner_join (s : List SelectItem) (t1 t2 : Tag) (e w : Expr) (hs : s ≠ []) :
    to_statement { select_tag := some s,
                   from_tag := some (FromClause.join_t t1 t2 e join_type.inner),
                   where_tag := some w }
      = some ("SELECT " ++ String.intercalate ", " (s.map to_column_string) ++
          ("\nFROM " ++ t1 ++ " JOIN " ++ t2 ++ " ON " ++ expression_to_string e ++ "\n") ++
          "\nWHERE " ++ expression_to_string w) := by
  simp only [to_statement, to_statement_select_type_ne_nil s hs, to_statement_from_tag,
    to_statement_table_ref]

/-! ### Order of slots and clauses (C11) -/

/-- C11: for a query that `build` accepts (a select list, a join and a where
expression), the binding plan consists of the slots of the ON expression
followed by the slots of the where expression (the select list contributes
none), and the rendered statement is the SELECT text, then the FROM text with
the rendered ON expression, then the WHERE text with the rendered where
expression. -/
theorem C11_slot_and_clause_order (db : define_database) (s : List SelectItem) (t1 t2 : Tag)
    (e : Expr) (kind : join_type) (w : Expr) (bq : built_query)
    (h : build db { select_tag := some s, from_tag := some (FromClause.join_t t1 t2 e kind),
                    where_tag := some w } = Except.ok bq) :
    bq.tt.parameters_ref.getD []
      = slots 0 0 (occurrences e) ++
        slots (occurrences e).length (stored_arguments 0 (occurrences e)).length (occurrences w) ∧
    (s ≠ [] → kind = join_type.inner →
      to_statement bq.t_
        = some ("SELECT " ++ String.intercalate ", " (s.map to_column_string) ++
            ("\nFROM " ++ t1 ++ " JOIN " ++ t2 ++ " ON " ++ expression_to_string e ++ "\n") ++
            "\nWHERE " ++ expression_to_string w)) := by
  have hplan := (build_slots db _ bq s t1 t2 e kind w rfl rfl rfl h).1
  have ht := (build_ok db _ bq h).1
  refine ⟨?_, ?_⟩
  · rw [hplan, slots_append]
    simp
  · intro hs hkind
    subst hkind
    rw [ht]
    exact to_statement_inner_join s t1 t2 e w hs

/-- C11 at a query with one parameter in the ON expression and one in the
where expression: `cid` gets slot 0, `min_price` slot 1. -/
theorem C11_witness :
    build example_db on_where_query = Except.ok { t_ := on_where_query, tt := on_where_tt } ∧
    on_where_tt.parameters_ref.getD []
      = [(0, parameters_ref_value.parameter_ref "cid" CppType.int64_t),
         (1, parameters_ref_value.parameter_ref "min_price" CppType.double_)] ∧
    to_statement on_where_query
      = some "SELECT orders.id\nFROM orders JOIN customers ON customers.id =  ? \n\nWHERE price >  ? " :=
  ⟨rfl,
   (C11_slot_and_clause_order example_db [orders_id] "orders" "customers" customers_id_eq_cid
      join_type.inner price_greater_min_price { t_ := on_where_query, tt := on_where_tt } rfl).1,
   (C11_slot_and_clause_order example_db [orders_id] "orders" "customers" customers_id_eq_cid
      join_type.inner price_greater_min_price { t_ := on_where_query, tt := on_where_tt } rfl).2 (by decide) rfl⟩

/-! ### Table references (C12) -/

theorem has_tag_append_self {K V : Type} [DecidableEq K] (t : List (K × V)) (m : K × V) :
    has_tag m.1 (t ++ [m]) = true := by
  unfold has_tag
  simp

theorem merge_singleton_new {K V : Type} [DecidableEq K] (t : List (K × V)) (m : K × V)
    (h : has_tag m.1 t = false) : merge t [m] = t ++ [m] := by
  simp [merge, merge_member, h, append]

/-- C12: from the empty tuple the self-join of `orders` with `orders` behaves as
claimed, the second reference returns the tuple of the first.  From the tuple
that stores the argument "John", the first reference to `orders` adds the table
and keeps the argument, but the second reference returns the tuple that was
moved from: its stored argument is the empty string, so the state is not
returned unchanged and processing the table twice does not give the state of
processing it once.  The referenced-tables set is the same after both. -/
theorem C12_second_reference_empties_arguments :
    process_table_ref example_db "orders" make_ttuple = Except.ok orders_referenced_tt ∧
    process_table_ref example_db "orders" orders_referenced_tt = Except.ok orders_referenced_tt ∧
    process example_db (Expr.val_holder (Literal.string "John")) make_ttuple = Except.ok john_tt ∧
    process_table_ref example_db "orders" john_tt = Except.ok john_orders_tt ∧
    process_table_ref example_db "orders" john_orders_tt
      = Except.ok (moved_from john_orders_tt) ∧
    john_orders_tt.arguments = some [(0, Literal.string "John")] ∧
    (moved_from john_orders_tt).arguments = some [(0, Literal.string "")] ∧
    moved_from john_orders_tt ≠ john_orders_tt ∧
    (moved_from john_orders_tt).referenced_tables = john_orders_tt.referenced_tables :=
  ⟨rfl, rfl, rfl, rfl, rfl, rfl, rfl, by decide, rfl⟩

/-! ### Column aliases (C13) -/

theorem table_column_type_of_has_column (db : define_database) (Table : Option Tag) (Column : Tag)
    (h : has_column db Table Column = some true) :
    ∃ T, table_column_type db Table Column = some T := by
  cases Table with
  | none => simp [has_column, table_type] at h
  | some t =>
    unfold has_column at h
    cases htb : table_type db (some t) with
    | none => simp [htb] at h
    | some tb =>
      simp only [htb, Option.some.injEq] at h
      cases hc : get_column_type tb.columns Column with
      | none => simp [hc] at h
      | some c => exact ⟨c.value_type, by simp [table_column_type, htb, hc]⟩

theorem process_column_alias_ref_ok (db : define_database) (Alias Column : Tag)
    (Table : Option Tag) (tt tt1 : TT)
    (h : process_column_alias_ref db Alias Column Table tt = Except.ok tt1) :
    has_table db Table = true ∧ has_column db Table Column = some true ∧
    has_tag Alias (tt.aliases.getD []) = false ∧
    tt1.aliases.getD [] = tt.aliases.getD [] ++ [(Alias, (Table, Column))] := by
  unfold process_column_alias_ref at h
  split at h
  · rename_i ht
    split at h
    · cases h
    · cases h
    · rename_i hc
      simp only [] at h
      split at h
      · cases h
      · rename_i hin
        split at h
        · cases h
        · simp only [Except.ok.injEq] at h
          subst h
          simp only [add_tag_if_not_present_aliases, Option.getD_some, Bool.not_eq_true] at hin ⊢
          exact ⟨ht, hc, hin, merge_singleton_new _ (Alias, (Table, Column)) hin⟩
  · cases h

theorem process_column_ref_aliases (db : define_database) (Column : Tag) (Table : Option Tag)
    (tt tt1 : TT) (h : process_column_ref db Column Table tt = Except.ok tt1) :
    tt1.aliases = tt.aliases ∧ tt1.referenced_tables = tt.referenced_tables ∧
    tt1.cout = tt.cout := by
  simp only [process_column_ref] at h
  split at h
  · cases h
  · split at h
    · cases h
    · split at h
      · cases h
      · simp only [Except.ok.injEq] at h
        subst h
        exact ⟨rfl, rfl, rfl⟩

theorem process_helper_aliases (db : define_database) (s : List SelectItem) (tt tt1 : TT)
    (h : process_helper db tt s = Except.ok tt1) :
    (tt1.aliases.getD []).map Prod.fst = (tt.aliases.getD []).map Prod.fst ++ alias_tags s ∧
    (alias_tags s).Nodup ∧
    ∀ a ∈ alias_tags s, a ∉ (tt.aliases.getD []).map Prod.fst := by
  induction s generalizing tt with
  | nil =>
    simp only [process_helper, Except.ok.injEq] at h
    subst h
    simp [alias_tags]
  | cons c rest ih =>
    simp only [process_helper] at h
    split at h
    · cases h
    · rename_i tt2 h2
      obtain ⟨hkeys, hnd, hnew⟩ := ih tt2 h
      cases c with
      | column Column Table =>
        simp only [process_select_item, process] at h2
        have hal := (process_column_ref_aliases db Column Table tt tt2 h2).1
        rw [hal] at hkeys hnew
        exact ⟨hkeys, hnd, hnew⟩
      | column_alias_ref Alias Column Table =>
        simp only [process_select_item] at h2
        obtain ⟨_, _, hin, hal⟩ := process_column_alias_ref_ok db Alias Column Table tt tt2 h2
        have hnot := (has_tag_eq_false_iff Alias (tt.aliases.getD [])).mp hin
        rw [hal] at hkeys hnew
        simp only [List.map_append, List.map_cons, List.map_nil, List.mem_append,
          List.mem_singleton, not_or] at hkeys hnew
        refine ⟨?_, ?_, ?_⟩
        · rw [hkeys]
          simp [alias_tags]
        · simp only [alias_tags, List.nodup_cons]
          exact ⟨fun hmem => (hnew Alias hmem).2 rfl, hnd⟩
        · intro a ha
          simp only [alias_tags, List.mem_cons] at ha
          rcases ha with ha | ha
          · subst ha
            exact hnot
          · exact (hnew a ha).1

/-- C13: processing a column alias whose alias tag is already in the alias set
fails; processing one whose alias tag is new and whose table and column exist
succeeds and appends the alias to the alias set; hence the select list of a
query that `build` accepts declares no alias twice. -/
theorem C13_column_alias (db : define_database) (Alias Column : Tag) (Table : Option Tag)
    (tt : TT) :
    (has_tag Alias (tt.aliases.getD []) = true →
        ∃ err, process_column_alias_ref db Alias Column Table tt = Except.error err) ∧
    (has_tag Alias (tt.aliases.getD []) = false → has_table db Table = true →
        has_column db Table Column = some true →
        ∃ tt1, process_column_alias_ref db Alias Column Table tt = Except.ok tt1 ∧
          tt1.aliases.getD [] = tt.aliases.getD [] ++ [(Alias, (Table, Column))] ∧
          has_tag Alias (tt1.aliases.getD []) = true) ∧
    (∀ (q : query_tuple) (bq : built_query) (s : List SelectItem),
        build db q = Except.ok bq → q.select_tag = some s → (alias_tags s).Nodup) := by
  refine ⟨?_, ?_, ?_⟩
  · intro hin
    cases hres : process_column_alias_ref db Alias Column Table tt with
    | error err => exact ⟨err, rfl⟩
    | ok tt1 =>
      have := (process_column_alias_ref_ok db Alias Column Table tt tt1 hres).2.2.1
      rw [hin] at this
      cases this
  · intro hin ht hc
    obtain ⟨T, hT⟩ := table_column_type_of_has_column db Table Column hc
    have hres : process_column_alias_ref db Alias Column Table tt = Except.ok
        { add_tag_if_not_present_aliases tt with
          aliases := some (merge (tt.aliases.getD []) [(Alias, (Table, Column))]),
          selected_columns := some (merge (tt.selected_columns.getD [])
            [(selected_tag.tag Column, CppType.type_ref T)]) } := by
      simp [process_column_alias_ref, ht, hc, hin, hT, add_tag_if_not_present_aliases]
    refine ⟨_, hres, ?_, ?_⟩
    · exact (process_column_alias_ref_ok db Alias Column Table tt _ hres).2.2.2
    · rw [(process_column_alias_ref_ok db Alias Column Table tt _ hres).2.2.2]
      exact has_tag_append_self _ (Alias, (Table, Column))
  · intro q bq s hb hs
    obtain ⟨_, s1, t1, t2, e, kind, w, tt_select, tt1, tt2, tt_from, hs1, _, _, hsel, _⟩ :=
      build_ok db q bq hb
    rw [hs] at hs1
    cases hs1
    exact (process_helper_aliases db s make_ttuple tt_select hsel).2.1

/-- C13 at `orders.id AS oid`: accepted from the empty tuple, rejected when
declared a second time. -/
theorem C13_witness :
    (∃ tt1, process_column_alias_ref example_db "oid" "id" (some "orders") make_ttuple
        = Except.ok tt1 ∧
      ∃ err, process_column_alias_ref example_db "oid" "id" (some "orders") tt1
        = Except.error err) :=
  let h := (C13_column_alias example_db "oid" "id" (some "orders") make_ttuple).2.1
    (by decide) (by decide) (by decide)
  ⟨h.choose, h.choose_spec.1,
   (C13_column_alias example_db "oid" "id" (some "orders") h.choose).1 h.choose_spec.2.2⟩

/-! ### Row type (C14) -/

theorem mem_merge_singleton {K V : Type} [DecidableEq K] (t : List (K × V)) (n m : K × V)
    (h : m ∈ merge t [n]) : m ∈ t ∨ m.2 = n.2 := by
  simp only [merge, List.foldl_cons, List.foldl_nil, merge_member] at h
  split at h
  · rw [List.mem_map] at h
    obtain ⟨x, hx, hxm⟩ := h
    by_cases hk : x.1 = n.1
    · rw [if_pos hk] at hxm
      right
      rw [← hxm]
    · rw [if_neg hk] at hxm
      left
      rw [← hxm]
      exact hx
  · simp only [append, List.mem_append, List.mem_singleton] at h
    rcases h with h | h
    · exact Or.inl h
    · right
      rw [h]

theorem holds_type_refs_merge (t : List (selected_tag × CppType)) (tag : selected_tag)
    (T : CppType) (h : holds_type_refs t) :
    holds_type_refs (merge t [(tag, CppType.type_ref T)]) := by
  intro m hm
  rcases mem_merge_singleton t _ m hm with h1 | h1
  · exact h m h1
  · exact ⟨T, h1⟩

theorem process_column_ref_holds (db : define_database) (Column : Tag) (Table : Option Tag)
    (tt tt1 : TT) (h : process_column_ref db Column Table tt = Except.ok tt1)
    (hin : holds_type_refs (tt.selected_columns.getD [])) :
    holds_type_refs (tt1.selected_columns.getD []) := by
  simp only [process_column_ref] at h
  split at h
  · cases h
  · split at h
    · cases h
    · split at h
      · cases h
      · simp only [Except.ok.injEq] at h
        subst h
        simp only [add_tag_if_not_present_selected_columns, Option.getD_some]
        exact holds_type_refs_merge _ _ _ hin

theorem process_holds (db : define_database) (e : Expr) (tt tt1 : TT)
    (h : process db e tt = Except.ok tt1)
    (hin : holds_type_refs (tt.selected_columns.getD [])) :
    holds_type_refs (tt1.selected_columns.getD []) := by
  induction e generalizing tt tt1 with
  | parameter_ref Name T =>
    simp only [process, process_parameter_ref, Except.ok.injEq] at h
    subst h
    exact hin
  | val_holder v =>
    simp only [process, process_val_holder, Except.ok.injEq] at h
    subst h
    exact hin
  | column_ref Column Table =>
    simp only [process] at h
    exact process_column_ref_holds db Column Table tt tt1 h hin
  | binary_expression bo e1 e2 ih1 ih2 =>
    simp only [process] at h
    split at h
    · cases h
    · rename_i tt_left hleft
      split at h
      · cases h
      · rename_i tt_right hright
        have hr := ih2 tt_left tt_right hright (ih1 tt tt_left hleft hin)
        split at h
        · split at h
          · split at h
            · simp only [Except.ok.injEq] at h
              subst h
              exact hr
            · cases h
          · cases h
        · cases h

theorem process_column_alias_ref_holds (db : define_database) (Alias Column : Tag)
    (Table : Option Tag) (tt tt1 : TT)
    (h : process_column_alias_ref db Alias Column Table tt = Except.ok tt1)
    (hin : holds_type_refs (tt.selected_columns.getD [])) :
    holds_type_refs (tt1.selected_columns.getD []) := by
  unfold process_column_alias_ref at h
  split at h
  · split at h
    · cases h
    · cases h
    · simp only [] at h
      split at h
      · cases h
      · split at h
        · cases h
        · simp only [Except.ok.injEq] at h
          subst h
          simp only [add_tag_if_not_present_aliases, Option.getD_some]
          exact holds_type_refs_merge _ _ _ hin
  · cases h

theorem process_helper_holds (db : define_database) (s : List SelectItem) (tt tt1 : TT)
    (h : process_helper db tt s = Except.ok tt1)
    (hin : holds_type_refs (tt.selected_columns.getD [])) :
    holds_type_refs (tt1.selected_columns.getD []) := by
  induction s generalizing tt with
  | nil =>
    simp only [process_helper, Except.ok.injEq] at h
    subst h
    exact hin
  | cons c rest ih =>
    simp only [process_helper] at h
    split at h
    · cases h
    · rename_i tt2 h2
      apply ih tt2 h
      cases c with
      | column Column Table =>
        simp only [process_select_item] at h2
        exact process_holds db _ tt tt2 h2 hin
      | column_alias_ref Alias Column Table =>
        simp only [process_select_item] at h2
        exact process_column_alias_ref_holds db Alias Column Table tt tt2 h2 hin

theorem build_holds (db : define_database) (q : query_tuple) (bq : built_query)
    (h : build db q = Except.ok bq) :
    holds_type_refs (bq.tt.selected_columns.getD []) := by
  obtain ⟨_, s, t1, t2, e, kind, w, tt_select, tt1, tt2, tt_from, _, _, _, hsel, h1, h2, hon,
    hwhere⟩ := build_ok db q bq h
  have h0 : holds_type_refs (make_ttuple.selected_columns.getD []) := by
    intro m hm
    cases hm
  have hs := process_helper_holds db s make_ttuple tt_select hsel h0
  rw [← (process_table_ref_frame db t1 tt_select tt1 h1).2.2.2.2.1] at hs
  rw [← (process_table_ref_frame db t2 tt1 tt2 h2).2.2.2.2.1] at hs
  exact process_holds db w tt_from bq.tt hwhere (process_holds db e tt2 tt_from hon hs)

theorem result_type_t_eq (T : CppType) :
    result_type_t T = if T = CppType.std_string then CppType.std_optional CppType.std_string_view
      else CppType.std_optional T := by
  cases T <;> simp [result_type_t]

theorem row_type_helper_of_holds (Columns : List (selected_tag × CppType))
    (h : holds_type_refs Columns) :
    ∃ row, row_type_helper Columns = some row ∧
      row.length = Columns.length ∧
      row.map Prod.fst = Columns.map Prod.fst ∧
      (∀ (i : Nat) (tag : selected_tag) (T : CppType),
        Columns[i]? = some (tag, CppType.type_ref T) → row[i]? = some (tag, result_type_t T)) ∧
      (∀ m ∈ row, ∃ T, m.2 = CppType.std_optional T) := by
  induction Columns with
  | nil =>
    refine ⟨[], rfl, rfl, rfl, ?_, ?_⟩
    · intro i tag T hi
      simp at hi
    · intro m hm
      cases hm
  | cons m rest ih =>
    obtain ⟨row, hrow, hlen, htags, hget, hopt⟩ :=
      ih (fun x hx => h x (List.mem_cons_of_mem m hx))
    obtain ⟨T, hT⟩ := h m (List.mem_cons_self m rest)
    refine ⟨(m.1, result_type_t T) :: row, ?_, ?_, ?_, ?_, ?_⟩
    · unfold row_type_helper at hrow ⊢
      rw [List.mapM_cons, hrow, hT]
      rfl
    · simp [hlen]
    · simp [htags]
    · intro i tag T2 hi
      cases i with
      | zero =>
        simp only [List.getElem?_cons_zero, Option.some.injEq] at hi ⊢
        rw [hi] at hT
        simp only [CppType.type_ref.injEq] at hT
        rw [hi, hT]
      | succ j =>
        simp only [List.getElem?_cons_succ] at hi ⊢
        exact hget j tag T2 hi
    · intro x hx
      rw [List.mem_cons] at hx
      rcases hx with hx | hx
      · rw [hx, result_type_t_eq]
        split
        · exact ⟨_, rfl⟩
        · exact ⟨_, rfl⟩
      · exact hopt x hx

/-- C14: for a selected-columns set as `process` accumulates it (every member
holds a `type_ref<T>`), the row type has one entry per member, in the same
order and under the same tag; the entry of a member holding `type_ref<T>` is
`std::optional<T>`, and `std::optional<std::string_view>` for `T = std::string`,
so every entry is an optional; the selected-columns set of every query that
`build` accepts is such a set. -/
theorem C14_row_type_is_optional (Columns : List (selected_tag × CppType))
    (h : holds_type_refs Columns) :
    (∃ row, row_type_helper Columns = some row ∧
      row.length = Columns.length ∧
      row.map Prod.fst = Columns.map Prod.fst ∧
      (∀ (i : Nat) (tag : selected_tag) (T : CppType),
        Columns[i]? = some (tag, CppType.type_ref T) →
        row[i]? = some (tag,
          if T = CppType.std_string then CppType.std_optional CppType.std_string_view
          else CppType.std_optional T)) ∧
      (∀ m ∈ row, ∃ T, m.2 = CppType.std_optional T)) ∧
    (∀ (db : define_database) (q : query_tuple) (bq : built_query),
      build db q = Except.ok bq → holds_type_refs (bq.tt.selected_columns.getD [])) := by
  refine ⟨?_, fun db q bq hb => build_holds db q bq hb⟩
  obtain ⟨row, hrow, hlen, htags, hget, hopt⟩ := row_type_helper_of_holds Columns h
  refine ⟨row, hrow, hlen, htags, ?_, hopt⟩
  intro i tag T hi
  rw [← result_type_t_eq]
  exact hget i tag T hi

/-- C14 at the selected columns `orders.id` (integer) and `item` (text): the
entry of `item` is an optional text view. -/
theorem C14_witness :
    holds_type_refs id_item_columns ∧
    ∃ row, row_type_helper id_item_columns = some row ∧ row.length = 2 ∧
      row[1]? = some (selected_tag.column_ref "item" none,
        CppType.std_optional CppType.std_string_view) := by
  have hh : holds_type_refs id_item_columns := by
    intro m hm
    simp only [id_item_columns, List.mem_cons, List.mem_singleton, List.not_mem_nil,
      or_false] at hm
    rcases hm with hm | hm <;> subst hm <;> exact ⟨_, rfl⟩
  obtain ⟨row, hrow, hlen, _, hget, _⟩ := (C14_row_type_is_optional id_item_columns hh).1
  exact ⟨hh, row, hrow, hlen, hget 1 (selected_tag.column_ref "item" none) CppType.std_string rfl⟩

/-! ### The rendered statement (C15, C16) -/

/-- C15: for a built query with a non-empty select list, an inner join and a
where expression, `to_statement` returns "SELECT " + the columns joined by
", " + "\nFROM " + table1 + " JOIN " + table2 + " ON " + the rendered ON
expression + "\n" + "\nWHERE " + the rendered where expression; a column is
rendered as its name, as table.name when qualified, and is followed by
" AS alias" when aliased. -/
theorem C15_rendered_statement (db : define_database) (s : List SelectItem) (t1 t2 : Tag)
    (e w : Expr) (bq : built_query) (hs : s ≠ [])
    (h : build db { select_tag := some s,
                    from_tag := some (FromClause.join_t t1 t2 e join_type.inner),
                    where_tag := some w } = Except.ok bq) :
    to_statement bq.t_
      = some ("SELECT " ++ String.intercalate ", " (s.map to_column_string) ++ "\nFROM " ++ t1 ++
          " JOIN " ++ t2 ++ " ON " ++ expression_to_string e ++ "\n" ++ "\nWHERE " ++
          expression_to_string w) ∧
    (∀ Column, to_column_string (SelectItem.column Column none) = Column) ∧
    (∀ Column Table,
      to_column_string (SelectItem.column Column (some Table)) = Table ++ "." ++ Column) ∧
    (∀ Alias Column,
      to_column_string (SelectItem.column_alias_ref Alias Column none)
        = Column ++ " AS " ++ Alias) ∧
    (∀ Alias Column Table,
      to_column_string (SelectItem.column_alias_ref Alias Column (some Table))
        = Table ++ "." ++ Column ++ " AS " ++ Alias) := by
  refine ⟨?_, fun _ => rfl, fun _ _ => rfl, fun _ _ => rfl, fun _ _ _ => rfl⟩
  rw [(build_ok db _ bq h).1, to_statement_inner_join s t1 t2 e w hs]
  simp only [String.append_assoc]

/-- C15 at `SELECT orders.id ... ON customers.id = ?cid WHERE price > ?min_price`. -/
theorem C15_witness :
    to_statement on_where_query
      = some "SELECT orders.id\nFROM orders JOIN customers ON customers.id =  ? \n\nWHERE price >  ? " :=
  (C15_rendered_statement example_db [orders_id] "orders" "customers" customers_id_eq_cid
    price_greater_min_price { t_ := on_where_query, tt := on_where_tt } (by decide) rfl).1

/-- C16: `build` rejects every query without a where expression, whatever its
select list and from clause, because it reads the `where_tag` member
unconditionally; `to_statement` by itself does render such a query, without a
WHERE part. -/
theorem C16_build_requires_where (db : define_database) (s : Option (List SelectItem))
    (f : Option FromClause) :
    (∃ err, build db { select_tag := s, from_tag := f, where_tag := none } = Except.error err) ∧
    build example_db no_where_query
      = Except.error (CompileError.ill_formed "tagged_tuple::get<where_tag>(t_)") ∧
    to_statement no_where_query
      = some "SELECT orders.id, item\nFROM orders JOIN customers ON customers.id = customerid\n" := by
  refine ⟨?_, by rfl, by decide⟩
  cases hres : build db { select_tag := s, from_tag := f, where_tag := none } with
  | error err => exact ⟨err, rfl⟩
  | ok bq =>
    obtain ⟨_, _, _, _, _, _, w, _, _, _, _, _, _, hw, _⟩ := build_ok db _ bq hres
    cases hw

/-! ### Row access (C17) -/

theorem filter_eq_singleton_iff {α : Type} (l : List α) (p : α → Bool) (x : α)
    (hnd : l.Nodup) :
    l.filter p = [x] ↔ x ∈ l ∧ p x = true ∧ ∀ y ∈ l, p y = true → y = x := by
  constructor
  · intro h
    have hx : x ∈ l.filter p := by rw [h]; exact List.mem_singleton_self x
    refine ⟨(List.mem_filter.mp hx).1, (List.mem_filter.mp hx).2, ?_⟩
    intro y hy hpy
    have : y ∈ l.filter p := List.mem_filter.mpr ⟨hy, hpy⟩
    rw [h] at this
    exact List.mem_singleton.mp this
  · intro ⟨hx, hpx, huniq⟩
    have hfn : (l.filter p).Nodup := List.Nodup.sublist (List.filter_sublist l) hnd
    have hall : ∀ y ∈ l.filter p, y = x := fun y hy =>
      huniq y (List.mem_filter.mp hy).1 (List.mem_filter.mp hy).2
    have hmem : x ∈ l.filter p := List.mem_filter.mpr ⟨hx, hpx⟩
    cases hf : l.filter p with
    | nil => rw [hf] at hmem; cases hmem
    | cons a rest =>
      rw [hf] at hall hfn
      have ha : a = x := hall a (List.mem_cons_self a rest)
      cases rest with
      | nil => rw [ha]
      | cons b rest2 =>
        have hb : b = x := hall b (List.mem_cons_of_mem a (List.mem_cons_self b rest2))
        rw [ha, hb] at hfn
        simp at hfn

theorem field_helper_eq_some_iff {V : Type} (Column : Tag) (Table : Option (Option Tag))
    (r : List (selected_tag × V)) (v : V) (hnd : r.Nodup) :
    field_helper Column Table r = some v ↔
      ∃ x, x.2 = v ∧ x ∈ r ∧ matches_column_ref Column Table x.1 = true ∧
        ∀ y ∈ r, matches_column_ref Column Table y.1 = true → y = x := by
  unfold field_helper
  constructor
  · intro h
    split at h
    · rename_i x hx
      simp only [Option.some.injEq] at h
      exact ⟨x, h, (filter_eq_singleton_iff r _ x hnd).mp hx⟩
    · cases h
  · intro ⟨x, hv, hx⟩
    rw [(filter_eq_singleton_iff r _ x hnd).mpr hx]
    simp only [hv]

/-- C17, as stated, fails in both directions.  The row type that `build`
computes for `SELECT item, orders.item ...` has an entry tagged
`column_ref<item, void>`, yet `field<item>` on such a row is rejected, because a
second entry matches; and on a row whose only entry is `orders.id` the access
`field<id>` is accepted, although there is no entry tagged `column_ref<id, void>`. -/
theorem C17_unqualified_access_deduces_table :
    ((build example_db item_twice_query).toOption.bind row_type_t).map
        (fun row => row.map Prod.fst) = some (item_twice_row.map Prod.fst) ∧
    (selected_tag.column_ref "item" none, "Phone") ∈ item_twice_row ∧
    field_Column "item" item_twice_row = none ∧
    has_tag (selected_tag.column_ref "id" none) orders_id_row = false ∧
    field_Column "id" orders_id_row = some "7" := by
  decide

/-- C17, amended: on a row whose members have distinct tags,
`field<Table, Column>` returns the value stored under the tag
`column_ref<Column, Table>` when the row has that tag and is rejected otherwise;
`field<Column>` returns the value of the one member tagged
`column_ref<Column, T>` for some `T` (`void` or a table) when there is exactly
one such member, and is rejected when there is none or more than one; an
accepted access therefore returns the value of a member whose column is the one
asked for. -/
theorem C17_field (V : Type) (r : List (selected_tag × V)) (hnd : (r.map Prod.fst).Nodup) :
    (∀ (Table : Option Tag) (Column : Tag) (v : V),
      field_Table_Column Table Column r = some v
        ↔ (selected_tag.column_ref Column Table, v) ∈ r) ∧
    (∀ (Column : Tag) (v : V),
      field_Column Column r = some v
        ↔ ∃ T, (selected_tag.column_ref Column T, v) ∈ r ∧
            ∀ T2 v2, (selected_tag.column_ref Column T2, v2) ∈ r → T2 = T) := by
  have hr : r.Nodup := List.Nodup.of_map Prod.fst hnd
  have hinj : ∀ x ∈ r, ∀ y ∈ r, x.1 = y.1 → x = y :=
    fun x hx y hy hxy => List.inj_on_of_nodup_map hnd hx hy hxy
  constructor
  · intro Table Column v
    unfold field_Table_Column
    rw [field_helper_eq_some_iff Column (some Table) r v hr]
    constructor
    · rintro ⟨⟨tag, val⟩, hv, hx, hm, _⟩
      cases tag with
      | column_ref c t =>
        simp only [matches_column_ref, decide_eq_true_eq] at hm
        simp only at hv
        rw [← hm.1, ← hm.2, ← hv]
        exact hx
      | tag b => simp [matches_column_ref] at hm
    · intro hx
      refine ⟨(selected_tag.column_ref Column Table, v), rfl, hx, by simp [matches_column_ref], ?_⟩
      rintro ⟨tag, val⟩ hy hm
      cases tag with
      | column_ref c t =>
        simp only [matches_column_ref, decide_eq_true_eq] at hm
        exact hinj _ hy _ hx (by simp [hm.1, hm.2])
      | tag b => simp [matches_column_ref] at hm
  · intro Column v
    unfold field_Column
    rw [field_helper_eq_some_iff Column none r v hr]
    constructor
    · rintro ⟨⟨tag, val⟩, hv, hx, hm, huniq⟩
      cases tag with
      | column_ref c t =>
        simp only [matches_column_ref, decide_eq_true_eq] at hm
        simp only at hv
        subst hm
        subst hv
        refine ⟨t, hx, ?_⟩
        intro T2 v2 h2
        have := huniq _ h2 (by simp [matches_column_ref])
        simp only [Prod.mk.injEq, selected_tag.column_ref.injEq] at this
        exact this.1.2
      | tag b => simp [matches_column_ref] at hm
    · rintro ⟨T, hx, huniq⟩
      refine ⟨(selected_tag.column_ref Column T, v), rfl, hx, by simp [matches_column_ref], ?_⟩
      rintro ⟨tag, val⟩ hy hm
      cases tag with
      | column_ref c t =>
        simp only [matches_column_ref, decide_eq_true_eq] at hm
        subst hm
        have ht := huniq t val hy
        subst ht
        exact hinj _ hy _ hx rfl
      | tag b => simp [matches_column_ref] at hm

/-- C17 amended, at a row with the single field `orders.id`. -/
theorem C17_witness :
    (orders_id_row.map Prod.fst).Nodup ∧
    field_Table_Column (some "orders") "id" orders_id_row = some "7" :=
  ⟨by decide,
   ((C17_field String orders_id_row (by decide)).1 (some "orders") "id" "7").mpr (by decide)⟩

/-! ### Standard output and stored arguments (C18, C19) -/

/-- C18: processing a literal writes to standard output: `process` of a
`val_holder` appends the printed tuple (the new argument list and the literal's
type) to what was written before, so the output state is not left unchanged. -/
theorem C18_literal_writes_to_cout (db : define_database) (e : Literal) (tt : TT) :
    process db (Expr.val_holder e) tt = Except.ok (process_val_holder e tt) ∧
    (process_val_holder e tt).cout
      = tt.cout ++ [(tt.arguments.getD [] ++ [((tt.arguments.getD []).length, e)],
                     CppType.type_ref e.type)] ∧
    (process_val_holder e tt).cout ≠ tt.cout := by
  refine ⟨rfl, rfl, ?_⟩
  intro h
  have hlen := congrArg List.length h
  simp [process_val_holder, add_tag_if_not_present_arguments,
    add_tag_if_not_present_parameters_ref] at hlen

theorem stored_arguments_eq_enumFrom (l : List occurrence) (m : Nat) :
    stored_arguments m l = List.enumFrom m (literals l) := by
  induction l generalizing m with
  | nil => rfl
  | cons o rest ih =>
    cases o with
    | parameter name T => simpa [stored_arguments, literals] using ih m
    | literal v => simp [stored_arguments, literals, List.enumFrom, ih]

theorem slots_indices (l : List occurrence) (n m : Nat) :
    (slots n m l).filterMap (fun s => slot_index s.2) = List.range' m (literals l).length := by
  induction l generalizing n m with
  | nil => rfl
  | cons o rest ih =>
    cases o with
    | parameter name T =>
      simp only [slots, literals]
      rw [List.filterMap_cons_none (by rfl)]
      exact ih (n + 1) m
    | literal v =>
      simp only [slots, literals, List.length_cons, List.range'_succ]
      rw [List.filterMap_cons_some (by rfl), ih]

/-- C19: when processing an expression succeeds from a tuple whose parameter
and argument lists are tagged `0, 1, 2, ...`, the argument list grows by the
values of the literals of the expression, in left-to-right order, the `k`-th of
them stored under the next `k`-th index; the literal slots of the parameter list
hold exactly these indices, in order, instead of a name; the slot of a literal
points to the argument that is this literal's value; and a named parameter
reference adds nothing to the argument list. -/
theorem C19_literal_slots (db : define_database) (e : Expr) (tt tt1 : TT)
    (hpr : ordinal_tags (tt.parameters_ref.getD []))
    (harg : ordinal_tags (tt.arguments.getD []))
    (h : process db e tt = Except.ok tt1) :
    tt1.arguments.getD []
      = tt.arguments.getD [] ++
        List.enumFrom (tt.arguments.getD []).length (literals (occurrences e)) ∧
    ((tt1.parameters_ref.getD []).drop (tt.parameters_ref.getD []).length).filterMap
        (fun s => slot_index s.2)
      = List.range' (tt.arguments.getD []).length (literals (occurrences e)).length ∧
    (∀ (i : Nat) (v : Literal), (occurrences e)[i]? = some (occurrence.literal v) →
        ∃ k, (tt1.parameters_ref.getD [])[(tt.parameters_ref.getD []).length + i]?
            = some ((tt.parameters_ref.getD []).length + i,
                    parameters_ref_value.type_ref_SizeArguments k) ∧
          (tt1.arguments.getD [])[k]? = some (k, v)) ∧
    (∀ (Name : Tag) (T : CppType) (tt0 : TT),
        process db (Expr.parameter_ref Name T) tt0
          = Except.ok (process_parameter_ref Name T tt0) ∧
        (process_parameter_ref Name T tt0).arguments.getD [] = tt0.arguments.getD [] ∧
        slot_index (parameters_ref_value.parameter_ref Name T) = none) := by
  obtain ⟨hp, ha⟩ := process_slots db e tt tt1 hpr harg h
  refine ⟨?_, ?_, ?_, ?_⟩
  · rw [ha, stored_arguments_eq_enumFrom]
  · rw [hp, List.drop_left]
    exact slots_indices _ _ _
  · intro i v hi
    obtain ⟨k, hk, hs, hv⟩ := slots_getElem_literal (occurrences e)
      (tt.parameters_ref.getD []).length (tt.arguments.getD []).length i v hi
    refine ⟨k, ?_, ?_⟩
    · rw [hp, List.getElem?_append_right (Nat.le_add_right _ _), Nat.add_sub_cancel_left]
      exact hs
    · rw [ha, List.getElem?_append_right hk]
      exact hv
  · intro Name T tt0
    refine ⟨rfl, ?_, rfl⟩
    simp [process_parameter_ref, add_tag_if_not_present_arguments,
      add_tag_if_not_present_parameters_ref]

/-- C19 at an expression with one literal between two named parameters: the
literal's slot holds index 0 and the argument list holds its value there. -/
theorem C19_witness :
    process example_db repeated_name make_ttuple = Except.ok repeated_name_tt ∧
    repeated_name_tt.arguments.getD [] = [(0, Literal.int64 7)] ∧
    (repeated_name_tt.parameters_ref.getD []).filterMap (fun s => slot_index s.2) = [0] :=
  ⟨rfl,
   (C19_literal_slots example_db repeated_name make_ttuple repeated_name_tt rfl rfl rfl).1,
   (C19_literal_slots example_db repeated_name make_ttuple repeated_name_tt rfl rfl rfl).2.1⟩

/-! ### `join_vector` (C20) -/

/-- C20: for a non-empty list of strings `join_vector` returns the elements in
order, separated by ", ", without a leading or trailing separator, whatever the
elements are; for the empty list it reads the last character of an empty
string, which has no defined result. -/
theorem C20_join_vector (v : List String) (hv : v ≠ []) :
    join_vector v = some (String.intercalate ", " v) ∧ join_vector [] = none := by
  refine ⟨?_, rfl⟩
  cases v with
  | nil => exact absurd rfl hv
  | cons a rest => exact join_vector_cons a rest

/-- C20 at a list with empty elements and an element that ends with a space. -/
theorem C20_witness :
    join_vector ["", "a ", "b", ""] = some ", a , b, " :=
  (C20_join_vector ["", "a ", "b", ""] (by decide)).1


/-! ### Grouping in the rendered text (C21) -/

/-- C21: `expression_to_string` emits no parentheses, so `(e1 o1 e2) o2 e3` and
`e1 o1 (e2 o2 e3)` render to the same text for all operands and operators; the
where expressions `(orders.id = ?x or orders.customerid = ?y) and orders.price = ?z`
and `orders.id = ?x or (orders.customerid = ?y and orders.price = ?z)` differ,
`build` accepts both, and the rendered statements are the same. -/
theorem C21_rendering_ignores_grouping :
    (∀ (e1 e2 e3 : Expr) (o1 o2 : binary_ops),
      expression_to_string
          (Expr.binary_expression o2 (Expr.binary_expression o1 e1 e2) e3)
        = expression_to_string
          (Expr.binary_expression o1 e1 (Expr.binary_expression o2 e2 e3))) ∧
    grouped_left ≠ grouped_right ∧
    (build example_db (orders_where grouped_left)).toOption.isSome = true ∧
    (build example_db (orders_where grouped_right)).toOption.isSome = true ∧
    to_statement (orders_where grouped_left) = to_statement (orders_where grouped_right) ∧
    to_statement (orders_where grouped_left)
      = some "SELECT orders.id\nFROM orders JOIN customers ON customers.id = customerid\n\nWHERE orders.id =  ?  or orders.customerid =  ?  and orders.price =  ? " := by
  refine ⟨?_, by decide, by decide, by decide, by decide, by decide⟩
  intro e1 e2 e3 o1 o2
  simp only [expression_to_string, String.append_assoc]

/-! ### Alias of an unqualified column (C23) -/

/-- C23: processing an alias of an unqualified column fails with "Missing
table", for every schema, alias, column and accumulated tuple, because
`has_table<Database, void>` is false; so an alias that is accepted has a table
qualifier.  In the example schema `item` is declared by exactly one table and
the unqualified reference to it is accepted, yet `item AS a` is rejected. -/
theorem C23_unqualified_alias_fails (db : define_database) (Alias Column : Tag) (tt : TT) :
    process_column_alias_ref db Alias Column none tt
      = Except.error (CompileError.static_assert "Missing table") ∧
    (∀ (Table : Option Tag) (tt1 : TT),
      process_column_alias_ref db Alias Column Table tt = Except.ok tt1 → ∃ t, Table = some t) ∧
    (example_db.filter (fun tb => declares tb "item")).length = 1 ∧
    (process_select_item example_db (SelectItem.column "item" none) make_ttuple).toOption.isSome
      = true ∧
    process_select_item example_db (SelectItem.column_alias_ref "a" "item" none) make_ttuple
      = Except.error (CompileError.static_assert "Missing table") := by
  have h0 : process_column_alias_ref db Alias Column none tt
      = Except.error (CompileError.static_assert "Missing table") := by
    simp [process_column_alias_ref, has_table, table_type]
  refine ⟨h0, ?_, by decide, by decide, by rfl⟩
  intro Table tt1 h
  cases Table with
  | none =>
    rw [h0] at h
    cases h
  | some t => exact ⟨t, rfl⟩

/-! ### Column references and the referenced tables (C22) -/

theorem process_column_ref_with_referenced_tables (db : define_database) (Column : Tag)
    (Table : Option Tag) (tt : TT) (rt : Option (List (Tag × Unit))) :
    process_column_ref db Column Table (with_referenced_tables tt rt)
      = (process_column_ref db Column Table tt).map (fun s => with_referenced_tables s rt) := by
  unfold process_column_ref
  simp only [with_referenced_tables, add_tag_if_not_present_selected_columns]
  split
  · rfl
  · split
    · rfl
    · split <;> rfl

theorem process_column_ref_depends_on_selected (db : define_database) (Column : Tag)
    (Table : Option Tag) (tt tt2 : TT) (h : tt2.selected_columns = tt.selected_columns) :
    (process_column_ref db Column Table tt2).map (fun s => (s.type, s.selected_columns))
      = (process_column_ref db Column Table tt).map (fun s => (s.type, s.selected_columns)) := by
  unfold process_column_ref
  simp only [add_tag_if_not_present_selected_columns, h]
  split
  · rfl
  · split
    · rfl
    · split <;> rfl

theorem process_with_referenced_tables (db : define_database) (e : Expr) (tt : TT)
    (rt : Option (List (Tag × Unit))) :
    process db e (with_referenced_tables tt rt)
      = (process db e tt).map (fun s => with_referenced_tables s rt) := by
  induction e generalizing tt with
  | parameter_ref Name T => rfl
  | val_holder v => rfl
  | column_ref Column Table =>
    simp only [process]
    exact process_column_ref_with_referenced_tables db Column Table tt rt
  | binary_expression bo e1 e2 ih1 ih2 =>
    simp only [process]
    rw [ih1]
    cases h1 : process db e1 tt with
    | error err => rfl
    | ok tt_left =>
      simp only [Except.map]
      rw [ih2]
      cases h2 : process db e2 tt_left with
      | error err => rfl
      | ok tt_right =>
        simp only [Except.map, with_referenced_tables]
        split
        · split
          · split <;> rfl
          · rfl
        · rfl

theorem process_column_alias_ref_with_referenced_tables (db : define_database)
    (Alias Column : Tag) (Table : Option Tag) (tt : TT) (rt : Option (List (Tag × Unit))) :
    process_column_alias_ref db Alias Column Table (with_referenced_tables tt rt)
      = (process_column_alias_ref db Alias Column Table tt).map
          (fun s => with_referenced_tables s rt) := by
  unfold process_column_alias_ref
  simp only [with_referenced_tables, add_tag_if_not_present_aliases]
  split
  · split
    · rfl
    · rfl
    · split
      · rfl
      · split <;> rfl
  · rfl

theorem eq_with_referenced_tables (a b : TT)
    (h : b.parameters_ref = a.parameters_ref ∧ b.arguments = a.arguments ∧
      b.type = a.type ∧ b.aliases = a.aliases ∧
      b.selected_columns = a.selected_columns ∧ b.cout = a.cout) :
    b = with_referenced_tables a b.referenced_tables := by
  cases a
  cases b
  simp only [with_referenced_tables, TT.mk.injEq] at h ⊢
  simp [h]

theorem process_table_ref_of_has_table (db : define_database) (Table : Tag) (tt : TT)
    (h : has_table db (some Table) = true) :
    ∃ tt1, process_table_ref db Table tt = Except.ok tt1 := by
  unfold process_table_ref
  rw [if_pos h]
  simp only []
  split
  · exact ⟨_, rfl⟩
  · exact ⟨_, rfl⟩

theorem process_table_ref_has_table (db : define_database) (Table : Tag) (tt tt1 : TT)
    (h : process_table_ref db Table tt = Except.ok tt1) : has_table db (some Table) = true := by
  unfold process_table_ref at h
  split at h
  · assumption
  · cases h

theorem build_join_tables_irrelevant (db : define_database) (s : List SelectItem)
    (t1 t2 t3 t4 : Tag) (e w : Expr) (kind kind2 : join_type) (bq : built_query)
    (h3 : has_table db (some t3) = true) (h4 : has_table db (some t4) = true)
    (h : build db { select_tag := some s, from_tag := some (FromClause.join_t t1 t2 e kind),
                    where_tag := some w } = Except.ok bq) :
    ∃ rt, build db { select_tag := some s, from_tag := some (FromClause.join_t t3 t4 e kind2),
                     where_tag := some w }
      = Except.ok { t_ := { select_tag := some s,
                            from_tag := some (FromClause.join_t t3 t4 e kind2),
                            where_tag := some w },
                    tt := with_referenced_tables bq.tt rt } := by
  obtain ⟨_, s1, a1, a2, e1, k1, w1, tt_select, tt1, tt2, tt_from, hs1, hf1, hw1,
    hsel, hr1, hr2, hon, hwhere⟩ := build_ok db _ bq h
  cases hs1
  cases hf1
  cases hw1
  obtain ⟨u1, hu1⟩ := process_table_ref_of_has_table db t3 tt_select h3
  obtain ⟨u2, hu2⟩ := process_table_ref_of_has_table db t4 u1 h4
  have f1 := process_table_ref_frame db t1 tt_select tt1 hr1
  have f2 := process_table_ref_frame db t2 tt1 tt2 hr2
  have g1 := process_table_ref_frame db t3 tt_select u1 hu1
  have g2 := process_table_ref_frame db t4 u1 u2 hu2
  have ha0 : tt_select.arguments = none := by
    rw [(process_helper_frame db s make_ttuple tt_select hsel).2]; rfl
  have ha1 : tt1.arguments = none := by rw [f1.2.1 ha0, ha0]
  have hb1 : u1.arguments = none := by rw [g1.2.1 ha0, ha0]
  have hu : u2 = with_referenced_tables tt2 u2.referenced_tables := by
    apply eq_with_referenced_tables
    refine ⟨?_, ?_, ?_, ?_, ?_, ?_⟩
    · rw [g2.1, g1.1, f2.1, f1.1]
    · rw [g2.2.1 hb1, hb1, f2.2.1 ha1, ha1]
    · rw [g2.2.2.1, g1.2.2.1, f2.2.2.1, f1.2.2.1]
    · rw [g2.2.2.2.1, g1.2.2.2.1, f2.2.2.2.1, f1.2.2.2.1]
    · rw [g2.2.2.2.2.1, g1.2.2.2.2.1, f2.2.2.2.2.1, f1.2.2.2.2.1]
    · rw [g2.2.2.2.2.2, g1.2.2.2.2.2, f2.2.2.2.2.2, f1.2.2.2.2.2]
  have hon2 : process db e u2
      = Except.ok (with_referenced_tables tt_from u2.referenced_tables) := by
    rw [hu, process_with_referenced_tables, hon]
    rfl
  have hw2 : process db w (with_referenced_tables tt_from u2.referenced_tables)
      = Except.ok (with_referenced_tables bq.tt u2.referenced_tables) := by
    rw [process_with_referenced_tables, hwhere]
    rfl
  refine ⟨u2.referenced_tables, ?_⟩
  simp only [build, process_select_type, hsel, process_from_tag, process_join_t, hu1, hu2,
    hon2, hw2]

/-- C22, as stated, fails at its witness: `customers.name` is a column of the
schema and the select list `customers.name` is accepted by itself, but `build`
rejects the query that selects it from `orders` alone, with or without a where
expression, because the `process` overload for a single-table from clause does
not compile.  And the outcome does not depend on the schema and the reference
only: `item.id` is accepted from the empty tuple and rejected after
`item.item AS x`. -/
theorem C22_single_table_from_rejected :
    has_table example_db (some "customers") = true ∧
    has_column example_db (some "customers") "name" = some true ∧
    (process_select_type example_db [SelectItem.column "name" (some "customers")]
        make_ttuple).toOption.isSome = true ∧
    build example_db name_from_orders_alone
      = Except.error (CompileError.ill_formed "process(f.e, std::move(tt))") ∧
    build example_db { name_from_orders_alone with where_tag := none }
      = Except.error (CompileError.ill_formed "process(f.e, std::move(tt))") ∧
    (process item_db (Expr.column_ref "id" (some "item")) make_ttuple).toOption.isSome = true ∧
    process item_db (Expr.column_ref "id" (some "item")) item_aliased_tt
      = Except.error (CompileError.static_assert "Column already selected") := by
  refine ⟨by decide, by decide, by decide, by rfl, by rfl, by decide, by rfl⟩

/-- C22, amended: processing a column reference from a tuple with any other
referenced-tables set succeeds or fails alike, with the same error or the same
result up to that set, in particular the same recorded type; whether it
succeeds, the recorded type and the resulting selected-columns set are the same
from any two tuples with the same selected-columns set; and when `build`
accepts a query with a join, it accepts the query with any two other tables of
the schema in the join, with the same accumulated tuple up to the
referenced-tables set, so a column of a table outside the join is accepted. -/
theorem C22_column_ref_ignores_referenced_tables (db : define_database) (Column : Tag)
    (Table : Option Tag) (tt : TT) (rt : Option (List (Tag × Unit))) :
    process db (Expr.column_ref Column Table) (with_referenced_tables tt rt)
      = (process db (Expr.column_ref Column Table) tt).map
          (fun s => with_referenced_tables s rt) ∧
    (∀ tt1, process db (Expr.column_ref Column Table) tt = Except.ok tt1 →
      ∃ tt2, process db (Expr.column_ref Column Table) (with_referenced_tables tt rt)
          = Except.ok tt2 ∧ tt2.type = tt1.type) ∧
    (∀ err, process db (Expr.column_ref Column Table) tt = Except.error err →
      process db (Expr.column_ref Column Table) (with_referenced_tables tt rt)
        = Except.error err) ∧
    (∀ tt2 : TT, tt2.selected_columns = tt.selected_columns →
      (process db (Expr.column_ref Column Table) tt2).map (fun s => (s.type, s.selected_columns))
        = (process db (Expr.column_ref Column Table) tt).map
            (fun s => (s.type, s.selected_columns))) ∧
    (∀ (s : List SelectItem) (t1 t2 t3 t4 : Tag) (e w : Expr) (kind kind2 : join_type)
        (bq : built_query),
      has_table db (some t3) = true → has_table db (some t4) = true →
      build db { select_tag := some s, from_tag := some (FromClause.join_t t1 t2 e kind),
                 where_tag := some w } = Except.ok bq →
      ∃ rt2, build db { select_tag := some s,
                        from_tag := some (FromClause.join_t t3 t4 e kind2),
                        where_tag := some w }
        = Except.ok { t_ := { select_tag := some s,
                              from_tag := some (FromClause.join_t t3 t4 e kind2),
                              where_tag := some w },
                      tt := with_referenced_tables bq.tt rt2 }) := by
  have hmap := process_with_referenced_tables db (Expr.column_ref Column Table) tt rt
  refine ⟨hmap, ?_, ?_, ?_, ?_⟩
  · intro tt1 h1
    rw [hmap, h1]
    exact ⟨_, rfl, rfl⟩
  · intro err h1
    rw [hmap, h1]
    rfl
  · intro tt2 h2
    simp only [process]
    exact process_column_ref_depends_on_selected db Column Table tt tt2 h2
  · intro s t1 t2 t3 t4 e w kind kind2 bq h3 h4 h
    exact build_join_tables_irrelevant db s t1 t2 t3 t4 e w kind kind2 bq h3 h4 h

/-- C22 amended, at `customers.name` selected from `orders` joined with
`orders`: accepted like the same query over `orders` joined with `customers`. -/
theorem C22_witness :
    build example_db name_from_orders_join_customers
      = Except.ok { t_ := name_from_orders_join_customers, tt := name_query_tt } ∧
    ∃ rt, build example_db name_from_orders_join_orders
      = Except.ok { t_ := name_from_orders_join_orders,
                    tt := with_referenced_tables name_query_tt rt } :=
  ⟨rfl,
   (C22_column_ref_ignores_referenced_tables example_db "name" (some "customers") make_ttuple
      none).2.2.2.2 [SelectItem.column "name" (some "customers")] "orders" "customers" "orders"
      "orders" id_eq_customerid orders_price_greater_min_price join_type.inner join_type.inner
      { t_ := name_from_orders_join_customers, tt := name_query_tt } (by decide) (by decide) rfl⟩

/-! ### Frames and growth of the accumulated parts (C24) -/

/-- C24: a parameter reference and a literal leave the referenced-tables,
selected-columns and alias sets as they are, and a table reference leaves the
parameter list, the selected-columns set and the alias set as they are; it
leaves the argument list as it is when the table was not referenced before, and
otherwise returns the argument list of the tuple that was moved from.  From the
tuple that references `orders` and stores the argument "John", processing the
table reference `orders` returns the stored argument as the empty string: the
argument list is changed and the stored text is gone. -/
theorem C24_table_ref_changes_arguments :
    (∀ (tt : TT) (Name : Tag) (T : CppType),
      (process_parameter_ref Name T tt).referenced_tables = tt.referenced_tables ∧
      (process_parameter_ref Name T tt).selected_columns = tt.selected_columns ∧
      (process_parameter_ref Name T tt).aliases = tt.aliases) ∧
    (∀ (tt : TT) (e : Literal),
      (process_val_holder e tt).referenced_tables = tt.referenced_tables ∧
      (process_val_holder e tt).selected_columns = tt.selected_columns ∧
      (process_val_holder e tt).aliases = tt.aliases) ∧
    (∀ (db : define_database) (Table : Tag) (tt tt1 : TT),
      process_table_ref db Table tt = Except.ok tt1 →
      tt1.parameters_ref = tt.parameters_ref ∧
      tt1.selected_columns = tt.selected_columns ∧ tt1.aliases = tt.aliases ∧
      (has_tag Table (tt.referenced_tables.getD []) = false → tt1.arguments = tt.arguments) ∧
      (has_tag Table (tt.referenced_tables.getD []) = true →
        tt1.arguments = (moved_from tt).arguments)) ∧
    has_tag "orders" (john_orders_tt.referenced_tables.getD []) = true ∧
    john_orders_tt.arguments = some [(0, Literal.string "John")] ∧
    (∃ tt1, process_table_ref example_db "orders" john_orders_tt = Except.ok tt1 ∧
      tt1.arguments = some [(0, Literal.string "")] ∧
      tt1.arguments ≠ john_orders_tt.arguments) := by
  refine ⟨fun _ _ _ => ⟨rfl, rfl, rfl⟩, fun _ _ => ⟨rfl, rfl, rfl⟩, ?_, by decide, rfl,
    ⟨moved_from john_orders_tt, rfl, rfl, by decide⟩⟩
  intro db Table tt tt1 h
  have f := process_table_ref_frame db Table tt tt1 h
  refine ⟨f.1, f.2.2.2.2.1, f.2.2.2.1, ?_, ?_⟩
  · intro hin
    simp only [process_table_ref, add_tag_if_not_present_referenced_tables, Option.getD_some,
      hin] at h
    split at h
    · simp only [Bool.not_false, if_true, Except.ok.injEq] at h
      subst h
      rfl
    · cases h
  · intro hin
    simp only [process_table_ref, add_tag_if_not_present_referenced_tables, Option.getD_some,
      hin] at h
    split at h
    · simp only [Bool.not_true, Bool.false_eq_true, if_false, Except.ok.injEq] at h
      subst h
      rfl
    · cases h

end TaggedSqlite
